import Mathlib

/-!
# MitGoServer: event configuration store and access gate

A shallow embedding of `go_server/main.go`.

* Go strings are Lean `String`s; the parsers of Go's `time` package read them
  character by character (every character they accept is ASCII).
* Go `int` values are `Int`; no computation of the server comes near the
  64-bit bounds.
* `float64` is the datatype `Float64` of IEEE-754 values (finite, infinite, NaN).
* The clock, the environment, the remote store and the file system are
  explicit arguments of the handlers; the process-wide variables `cfg` and
  `tokenStore` are fields of `ServerState`, passed in and returned.
* The functions of Go's standard library the handlers call (`time.Parse`,
  `time.Date`, `Time.Format`, ...) are embedded in the namespace `GoTime`,
  following the library's own algorithms for the two layouts the server uses.
-/

namespace MitGoServer

/-! ## Go's `time` package -/

namespace GoTime

def secondsPerMinute : Int := 60
def secondsPerHour : Int := 60 * secondsPerMinute
def secondsPerDay : Int := 24 * secondsPerHour
def daysPer400Years : Int := 365 * 400 + 97
def daysPer100Years : Int := 365 * 100 + 24
def daysPer4Years : Int := 365 * 4 + 1

/-- The year of the zero of the library's absolute time scale. -/
def absoluteZeroYear : Int := -292277022399

/-- Seconds from the absolute zero to January 1 of year 1
(`(absoluteZeroYear - internalYear) * 365.2425 * secondsPerDay`). -/
def absoluteToInternal : Int := (absoluteZeroYear - 1) * 146097 / 400 * secondsPerDay

def internalToAbsolute : Int := -absoluteToInternal

/-- Seconds from January 1 of year 1 to January 1, 1970. -/
def unixToInternal : Int := (1969 * 365 + 1969 / 4 - 1969 / 100 + 1969 / 400) * secondsPerDay

def internalToUnix : Int := -unixToInternal

/-- Table `daysBefore`: `daysBeforeTable[m]` counts the days of a non-leap
year before month `m + 1` starts. -/
def daysBeforeTable : List Int :=
  [0, 31, 31 + 28, 31 + 28 + 31, 31 + 28 + 31 + 30, 31 + 28 + 31 + 30 + 31,
   31 + 28 + 31 + 30 + 31 + 30, 31 + 28 + 31 + 30 + 31 + 30 + 31,
   31 + 28 + 31 + 30 + 31 + 30 + 31 + 31, 31 + 28 + 31 + 30 + 31 + 30 + 31 + 31 + 30,
   31 + 28 + 31 + 30 + 31 + 30 + 31 + 31 + 30 + 31,
   31 + 28 + 31 + 30 + 31 + 30 + 31 + 31 + 30 + 31 + 30,
   31 + 28 + 31 + 30 + 31 + 30 + 31 + 31 + 30 + 31 + 30 + 31]

def daysBefore (m : Int) : Int := daysBeforeTable.getD m.toNat 0

def isLeap (year : Int) : Bool :=
  year % 4 == 0 && (year % 100 != 0 || year % 400 == 0)

def daysIn (m : Int) (year : Int) : Int :=
  if m == 2 && isLeap year then 29 else daysBefore m - daysBefore (m - 1)

/-- Function `norm`: brings `lo` into `[0, base)`, carrying into `hi`. -/
def norm (hi lo base : Int) : Int × Int :=
  let (hi, lo) :=
    if lo < 0 then
      let n := (-lo - 1) / base + 1
      (hi - n, lo + n * base)
    else (hi, lo)
  if lo ≥ base then
    let n := lo / base
    (hi + n, lo - n * base)
  else (hi, lo)

/-- Function `daysSinceEpoch`: days from the absolute zero to January 1 of `year`. -/
def daysSinceEpoch (year : Int) : Int :=
  let y := year - absoluteZeroYear
  let n := y / 400
  let y := y - 400 * n
  let d := daysPer400Years * n
  let n := y / 100
  let y := y - 100 * n
  let d := d + daysPer100Years * n
  let n := y / 4
  let y := y - 4 * n
  let d := d + daysPer4Years * n
  let n := y
  d + 365 * n

/-- One period of a time zone: the offset east of UTC in seconds and the UTC
seconds `[start, stop)` in which it is in force. -/
structure Zone where
  offset : Int
  start : Int
  stop : Int

/-- A `*time.Location`, given by its `lookup` function. -/
structure Location where
  lookup : Int → Zone

def alphaSec : Int := -9223372036854775808
def omegaSec : Int := 9223372036854775807

def FixedZone (offset : Int) : Location := ⟨fun _ => ⟨offset, alphaSec, omegaSec⟩⟩

def UTC : Location := FixedZone 0

/-- A `time.Time` without monotonic clock reading: Unix seconds, nanoseconds
within the second, and the location used for presentation. -/
structure Time where
  unix : Int
  nsec : Int
  loc : Location

/-- The zero value `time.Time{}`: January 1, year 1, 00:00:00 UTC. -/
def Time.zero : Time := ⟨internalToUnix, 0, UTC⟩

def Time.Before (t u : Time) : Bool :=
  t.unix < u.unix || (t.unix == u.unix && t.nsec < u.nsec)

def Time.After (t u : Time) : Bool :=
  t.unix > u.unix || (t.unix == u.unix && t.nsec > u.nsec)

def Time.Equal (t u : Time) : Bool :=
  t.unix == u.unix && t.nsec == u.nsec

/-- Method `UTC`: the same instant, presented in UTC. -/
def Time.UTC (t : Time) : Time := { t with loc := GoTime.UTC }

/-- Method `In`: the same instant, presented in `loc`. -/
def Time.In (t : Time) (loc : Location) : Time := { t with loc := loc }

def Time.Location (t : Time) : Location := t.loc

/-- Twelve hours as a `time.Duration` (nanoseconds). -/
def twelveHours : Int := 12 * 3600 * 1000000000

/-- Method `Add` for a duration in nanoseconds. -/
def Time.Add (t : Time) (d : Int) : Time :=
  let dsec := Int.tdiv d 1000000000
  let nsec := t.nsec + Int.tmod d 1000000000
  if nsec ≥ 1000000000 then { t with unix := t.unix + (dsec + 1), nsec := nsec - 1000000000 }
  else if nsec < 0 then { t with unix := t.unix + (dsec - 1), nsec := nsec + 1000000000 }
  else { t with unix := t.unix + dsec, nsec := nsec }

/-- Last step of `time.Date`: from seconds read on the wall clock of `loc` to
UTC seconds. The zone is looked up at `unix` taken as UTC and, when `unix`
less its offset falls outside that zone's period, looked up again there. -/
def zoneShift (loc : Location) (unix : Int) : Int :=
  let z := loc.lookup unix
  if z.offset != 0 then
    let utc := unix - z.offset
    let offset := if utc < z.start || utc ≥ z.stop then (loc.lookup utc).offset else z.offset
    unix - offset
  else unix

/-- Function `time.Date`. -/
def Date (year month day hour min sec nsec : Int) (loc : Location) : Time :=
  -- Normalize month, overflowing into year.
  let m := month - 1
  let (year, m) := norm year m 12
  let month := m + 1
  -- Normalize nsec, sec, min, hour, overflowing into day.
  let (sec, nsec) := norm sec nsec 1000000000
  let (min, sec) := norm min sec 60
  let (hour, min) := norm hour min 60
  let (day, hour) := norm day hour 24
  -- Days since the absolute epoch, days before this month, days before today.
  let d := daysSinceEpoch year
  let d := d + daysBefore (month - 1)
  let d := if isLeap year && month ≥ 3 then d + 1 else d
  let d := d + (day - 1)
  -- Time elapsed today.
  let abs := d * secondsPerDay + (hour * secondsPerHour + min * secondsPerMinute + sec)
  let unix := abs + (absoluteToInternal + internalToUnix)
  ⟨zoneShift loc unix, nsec, loc⟩

/-- Method `abs`: seconds since the absolute zero, shifted by the zone offset. -/
def Time.abs (t : Time) : Int :=
  t.unix + (t.loc.lookup t.unix).offset + (unixToInternal + internalToAbsolute)

/-- Function `absDate` with `full = false`: the year and the day within the
year (from 0) of an absolute time. -/
def absYday (abs : Int) : Int × Int :=
  let d := abs / secondsPerDay
  -- 400-year cycles
  let n := d / daysPer400Years
  let y := 400 * n
  let d := d - daysPer400Years * n
  -- 100-year cycles; `n -= n >> 2`
  let n := d / daysPer100Years
  let n := n - n / 4
  let y := y + 100 * n
  let d := d - daysPer100Years * n
  -- 4-year cycles
  let n := d / daysPer4Years
  let y := y + 4 * n
  let d := d - daysPer4Years * n
  -- years within a 4-year cycle; `n -= n >> 2`
  let n := d / 365
  let n := n - n / 4
  let y := y + n
  let d := d - 365 * n
  (y + absoluteZeroYear, d)

/-- Second half of `absDate`: month and day of the month from the day of the year. -/
def monthDay (year yday : Int) : Int × Int :=
  if isLeap year && yday == 31 + 29 - 1 then (2, 29)
  else
    let day := if isLeap year && yday > 31 + 29 - 1 then yday - 1 else yday
    -- Estimate the month assuming 31-day months; too low by at most one.
    let month := day / 31
    let stop := daysBefore (month + 1)
    let (month, begin) := if day ≥ stop then (month + 1, stop) else (month, daysBefore month)
    (month + 1, day - begin + 1)

/-- Function `absDate` with `full = true`: year, month, day of an absolute time. -/
def absDate (abs : Int) : Int × Int × Int :=
  let (year, yday) := absYday abs
  let (month, day) := monthDay year yday
  (year, month, day)

def Time.Year (t : Time) : Int := (absDate t.abs).1
def Time.Month (t : Time) : Int := (absDate t.abs).2.1
def Time.Day (t : Time) : Int := (absDate t.abs).2.2

/-- Function `absClock`: hour, minute, second of an absolute time. -/
def absClock (abs : Int) : Int × Int × Int :=
  let sec := abs % secondsPerDay
  let hour := sec / secondsPerHour
  let sec := sec - hour * secondsPerHour
  let min := sec / secondsPerMinute
  let sec := sec - min * secondsPerMinute
  (hour, min, sec)

def Time.Clock (t : Time) : Int × Int × Int := absClock t.abs

/-! ### Parsing (`time.Parse`) for the layouts `"2006-01-02"` and `time.RFC3339`

The general, layout-driven parser of Go 1.20 and later, specialised to the two
layouts: element by element, with the literal text between elements skipped.
(For `time.RFC3339` the library first tries a stricter fast path, which
accepts a subset of these values with the same result.) -/

/-- The ways `time.Parse` fails: a value that does not match the layout
(`errBad`), an element out of range, text after the last element. -/
inductive ParseError where
  | bad
  | outOfRange (elem : String)
  | extraText
  deriving DecidableEq, Repr

def digitVal (c : Char) : Int := (c.toNat : Int) - 48

/-- Function `getnum`: a one- or two-digit number; with `fixed`, two digits exactly. -/
def getnum : List Char → Bool → Except ParseError (Int × List Char)
  | [], _ => .error .bad
  | [c0], fixed =>
    if !c0.isDigit then .error .bad
    else if fixed then .error .bad
    else .ok (digitVal c0, [])
  | c0 :: c1 :: rest, fixed =>
    if !c0.isDigit then .error .bad
    else if !c1.isDigit then
      if fixed then .error .bad else .ok (digitVal c0, c1 :: rest)
    else .ok (digitVal c0 * 10 + digitVal c1, rest)

/-- Element `2006` (`stdLongYear`): four digits. -/
def getLongYear : List Char → Except ParseError (Int × List Char)
  | c0 :: c1 :: c2 :: c3 :: rest =>
    if c0.isDigit && c1.isDigit && c2.isDigit && c3.isDigit then
      .ok (((digitVal c0 * 10 + digitVal c1) * 10 + digitVal c2) * 10 + digitVal c3, rest)
    else .error .bad
  | _ => .error .bad

/-- Function `skip` for a one-character literal of the layout (`-`, `T`, `:`). -/
def skip : List Char → Char → Except ParseError (List Char)
  | [], _ => .error .bad
  | c :: rest, p => if c == p then .ok rest else .error .bad

def commaOrPeriod (c : Char) : Bool := c == '.' || c == ','

/-- Value of a run of decimal digits (`atoi` on digits). -/
def digitsVal (ds : List Char) : Int := ds.foldl (fun acc c => acc * 10 + digitVal c) 0

/-- Function `parseNanoseconds` on a separator followed by `ds`, a non-empty
run of digits: the first nine digits count, scaled to nanoseconds. -/
def parseNanoseconds (ds : List Char) : Int :=
  let used := ds.take 9
  digitsVal used * 10 ^ (9 - used.length)

/-- Fractional second in the value where the layout has none: a period or
comma followed by at least one digit is read up to the last digit. -/
def fraction : List Char → Int × List Char
  | c0 :: c1 :: rest =>
    if commaOrPeriod c0 && c1.isDigit then
      (parseNanoseconds ((c1 :: rest).takeWhile Char.isDigit), (c1 :: rest).dropWhile Char.isDigit)
    else (0, c0 :: c1 :: rest)
  | value => (0, value)

/-- Element `Z07:00` (`stdISO8601ColonTZ`): `Z`, or a sign, two digits, a
colon and two digits; the result is the offset in seconds east of UTC. -/
def getColonTZ : List Char → Except ParseError (Int × List Char)
  | 'Z' :: rest => .ok (0, rest)
  | sign :: h0 :: h1 :: c :: m0 :: m1 :: rest =>
    if c != ':' then .error .bad
    else
      match getnum [h0, h1] true with
      | .error e => .error e
      | .ok (hr, _) =>
        match getnum [m0, m1] true with
        | .error e => .error e
        | .ok (mm, _) =>
          if hr > 24 then .error (.outOfRange "time zone offset hour")
          else if mm > 60 then .error (.outOfRange "time zone offset minute")
          else
            let zoneOffset := (hr * 60 + mm) * 60
            if sign == '+' then .ok (zoneOffset, rest)
            else if sign == '-' then .ok (-zoneOffset, rest)
            else .error .bad
  | _ => .error .bad

/-- Year, month and day of a value in layout `2006-01-02`, with what follows. -/
def getDate (value : List Char) : Except ParseError (Int × Int × Int × List Char) :=
  match getLongYear value with
  | .error e => .error e
  | .ok (year, value) =>
    match skip value '-' with
    | .error e => .error e
    | .ok value =>
      match getnum value true with
      | .error e => .error e
      | .ok (month, value) =>
        if month ≤ 0 ∨ 12 < month then .error (.outOfRange "month")
        else
          match skip value '-' with
          | .error e => .error e
          | .ok value =>
            match getnum value true with
            | .error e => .error e
            | .ok (day, value) => .ok (year, month, day, value)

/-- Text `time.Parse("2006-01-02", value)`. -/
def parseDateOnly (value : List Char) : Except ParseError Time :=
  match getDate value with
  | .error e => .error e
  | .ok (year, month, day, value) =>
    if value ≠ [] then .error .extraText
    else if day < 1 ∨ day > daysIn month year then .error (.outOfRange "day")
    else .ok (Date year month day 0 0 0 0 UTC)

/-- Hour, minute, second and nanosecond of a value in layout `15:04:05`
(with an optional fractional second), with what follows. -/
def getClock (value : List Char) : Except ParseError (Int × Int × Int × Int × List Char) :=
  match getnum value false with
  | .error e => .error e
  | .ok (hour, value) =>
    if hour < 0 ∨ 24 ≤ hour then .error (.outOfRange "hour")
    else
      match skip value ':' with
      | .error e => .error e
      | .ok value =>
        match getnum value true with
        | .error e => .error e
        | .ok (min, value) =>
          if min < 0 ∨ 60 ≤ min then .error (.outOfRange "minute")
          else
            match skip value ':' with
            | .error e => .error e
            | .ok value =>
              match getnum value true with
              | .error e => .error e
              | .ok (sec, value) =>
                if sec < 0 ∨ 60 ≤ sec then .error (.outOfRange "second")
                else
                  let (nsec, value) := fraction value
                  .ok (hour, min, sec, nsec, value)

/-- Text `time.Parse(time.RFC3339, value)`, layout `2006-01-02T15:04:05Z07:00`. -/
def parseRFC3339 (value : List Char) : Except ParseError Time :=
  match getDate value with
  | .error e => .error e
  | .ok (year, month, day, value) =>
    match skip value 'T' with
    | .error e => .error e
    | .ok value =>
      match getClock value with
      | .error e => .error e
      | .ok (hour, min, sec, nsec, value) =>
        match getColonTZ value with
        | .error e => .error e
        | .ok (zoneOffset, value) =>
          if value ≠ [] then .error .extraText
          else if day < 1 ∨ day > daysIn month year then .error (.outOfRange "day")
          else
            let t := Date year month day hour min sec nsec UTC
            .ok { t with unix := t.unix - zoneOffset, loc := FixedZone zoneOffset }

/-- The two layouts the server passes to `time.Parse`. -/
inductive Layout where
  | dateOnly
  | RFC3339
  deriving DecidableEq, Repr

/-- Function `time.Parse`. -/
def Parse (layout : Layout) (value : String) : Except ParseError Time :=
  match layout with
  | .dateOnly => parseDateOnly value.toList
  | .RFC3339 => parseRFC3339 value.toList

/-! ### Formatting (`Time.Format`) for the layout `time.RFC3339` -/

def digitChar (n : Int) : Char := Char.ofNat (48 + n.toNat)

/-- Decimal digits of `n` in front of `acc`, at most `fuel` of them. -/
def natDigits : Nat → Nat → List Char → List Char
  | 0, _, acc => acc
  | fuel + 1, n, acc =>
    let acc := digitChar (n % 10 : Nat) :: acc
    if n / 10 = 0 then acc else natDigits fuel (n / 10) acc

/-- Decimal digits of a 64-bit natural number (at most 20 digits), padded
with zeros on the left to `width`. -/
def padDigits (n width : Nat) : List Char :=
  let ds := natDigits 20 n []
  List.replicate (width - ds.length) '0' ++ ds

/-- Function `appendInt`: a sign for a negative number, then the digits
padded with zeros to `width`. -/
def appendInt (x : Int) (width : Nat) : List Char :=
  if x < 0 then '-' :: padDigits (-x).toNat width else padDigits x.toNat width

/-- Text `t.Format(time.RFC3339)`. -/
def Time.Format (t : Time) : String :=
  let offset := (t.loc.lookup t.unix).offset
  let (year, month, day) := absDate t.abs
  let (hour, min, sec) := absClock t.abs
  let zone :=
    if offset == 0 then ['Z']
    else
      let z := Int.tdiv offset 60
      let (sign, z) := if z < 0 then ('-', -z) else ('+', z)
      sign :: (appendInt (z / 60) 2 ++ ':' :: appendInt (z % 60) 2)
  String.mk (appendInt year 4 ++ '-' :: appendInt month 2 ++ '-' :: appendInt day 2 ++
    'T' :: appendInt hour 2 ++ ':' :: appendInt min 2 ++ ':' :: appendInt sec 2 ++ zone)

end GoTime

open GoTime

/-! ## `float64` -/

/-- An IEEE-754 value: `finite neg mant exp` is `(-1)^neg * mant * 2^exp`
(so `finite true 0 0` is the negative zero), `inf neg` an infinity. -/
inductive Float64 where
  | finite (neg : Bool) (mant : Nat) (exp : Int)
  | inf (neg : Bool)
  | nan

namespace Float64

def zero : Float64 := finite false 0 0

/-- The finite value `(-1)^neg * mant * 2^exp` as a multiple of `2^low`, for `low ≤ exp`. -/
def scaled (neg : Bool) (mant : Nat) (exp low : Int) : Int :=
  let v : Int := (mant : Int) * 2 ^ (exp - low).toNat
  if neg then -v else v

/-- The comparison `x < y` of IEEE-754: false whenever an operand is NaN. -/
def lt : Float64 → Float64 → Bool
  | nan, _ => false
  | _, nan => false
  | inf n1, inf n2 => n1 && !n2
  | inf n1, finite _ _ _ => n1
  | finite _ _ _, inf n2 => !n2
  | finite n1 m1 e1, finite n2 m2 e2 =>
    decide (scaled n1 m1 e1 (min e1 e2) < scaled n2 m2 e2 (min e1 e2))

/-- The comparison `x ≤ y` of IEEE-754: false whenever an operand is NaN. -/
def le : Float64 → Float64 → Bool
  | nan, _ => false
  | _, nan => false
  | inf n1, inf n2 => n1 || !n2
  | inf n1, finite _ _ _ => n1
  | finite _ _ _, inf n2 => !n2
  | finite n1 m1 e1, finite n2 m2 e2 =>
    decide (scaled n1 m1 e1 (min e1 e2) ≤ scaled n2 m2 e2 (min e1 e2))

def isNaN : Float64 → Bool
  | nan => true
  | _ => false

def isInf : Float64 → Bool
  | inf _ => true
  | _ => false

end Float64

/-! ## Configuration -/

structure Gebuehren where
  Name : String
  Amount : Float64

structure EventKonfiguration where
  Year : Int
  Date : String
  StartTime : String
  DieGebuehren : List Gebuehren
  UpdatedAt : String

/-- The process environment, as read by `os.Getenv` (unset variables read as `""`). -/
abbrev Env := String → String

def getEnv (env : Env) (key fallback : String) : String :=
  let v := env key
  if v == "" then fallback else v

def adminToken (env : Env) : String := getEnv env "ADMIN_TOKEN" "my-secret-admin-token"

def parseAppID (env : Env) : String := getEnv env "PARSE_APP_ID" (getEnv env "BACK4APP_APP_ID" "")

def parseRestKey (env : Env) : String :=
  getEnv env "PARSE_REST_KEY" (getEnv env "BACK4APP_REST_KEY" "")

def parseServerURL (env : Env) : String :=
  getEnv env "PARSE_SERVER_URL" (getEnv env "BACK4APP_SERVER_URL" "https://parseapi.back4app.com")

/-- The errors of `validateConfig`; the two parse failures wrap the error of `time.Parse`. -/
inductive ValidationError where
  | yearOutOfRange
  | dateAndStartTimeMustBeSet
  | dateMustBeYYYYMMDD (err : ParseError)
  | startTimeMustBeRFC3339 (err : ParseError)
  | feeAmountsMustNotBeNegative
  | feeNameRequired
  deriving DecidableEq, Repr

/-- The loop of `validateConfig` over the fee entries. -/
def validateFees : List Gebuehren → Except ValidationError Unit
  | [] => .ok ()
  | f :: rest =>
    if Float64.lt f.Amount Float64.zero then .error .feeAmountsMustNotBeNegative
    else if f.Name == "" then .error .feeNameRequired
    else validateFees rest

def validateConfig (c : EventKonfiguration) : Except ValidationError Unit :=
  if c.Year < 2000 || c.Year > 2100 then .error .yearOutOfRange
  else if c.Date == "" || c.StartTime == "" then .error .dateAndStartTimeMustBeSet
  else
    match Parse .dateOnly c.Date with
    | .error err => .error (.dateMustBeYYYYMMDD err)
    | .ok _ =>
      match Parse .RFC3339 c.StartTime with
      | .error err => .error (.startTimeMustBeRFC3339 err)
      | .ok _ => validateFees c.DieGebuehren

/-! ## Responses and server state -/

/-- What a handler writes: the text of `http.Error` (without the final
newline), or the value handed to `writeJSON`. The error of `validateConfig`
is kept as a value; on the wire it follows the text `validation failed: `. -/
inductive Body where
  | text (msg : String)
  | validationFailed (err : ValidationError)
  | config (c : EventKonfiguration)
  | token (accessToken expiresAt : String)
  | accessStatus (isRegistrationOpen : Bool) (cutoffAt now eventDate : String)
      (hasValidToken : Bool)

/-- The field `isRegistrationOpen` of an access-status answer. -/
def Body.isRegistrationOpen : Body → Option Bool
  | .accessStatus isOpen _ _ _ _ => some isOpen
  | _ => none

structure Response where
  status : Nat
  body : Body

def StatusOK : Nat := 200
def StatusCreated : Nat := 201
def StatusBadRequest : Nat := 400
def StatusUnauthorized : Nat := 401
def StatusMethodNotAllowed : Nat := 405
def StatusInternalServerError : Nat := 500

/-- Function `http.Error`. -/
def httpError (msg : String) (code : Nat) : Response := ⟨code, .text msg⟩

/-- Function `writeJSON`: status 200 with the encoded value. -/
def writeJSON (v : Body) : Response := ⟨StatusOK, v⟩

/-- The map `tokenStore`, token to expiry, as an association list. -/
abbrev TokenStore := List (String × Time)

namespace TokenStore

/-- Expression `tokenStore[tkn]` with its `ok` flag. -/
def get (m : TokenStore) (tkn : String) : Option Time := m.lookup tkn

/-- Statement `delete(tokenStore, tkn)`. -/
def delete (m : TokenStore) (tkn : String) : TokenStore := m.filter (fun e => e.1 != tkn)

/-- Statement `tokenStore[tkn] = exp`. -/
def set (m : TokenStore) (tkn : String) (exp : Time) : TokenStore := (tkn, exp) :: delete m tkn

end TokenStore

/-- The variables `cfg` and `tokenStore`, and the contents of the file
`config.json` (the record it encodes; `none` when there is no readable file). -/
structure ServerState where
  cfg : EventKonfiguration
  tokenStore : TokenStore
  configFile : Option EventKonfiguration

/-- Outcome of `os.WriteFile` on `config.json`: it succeeds, or it fails with
an error text and leaves some contents behind. -/
inductive WriteOutcome where
  | ok
  | failed (err : String) (left : Option EventKonfiguration)

/-- What `json.MarshalIndent` refuses: a fee amount that is NaN or infinite. -/
def marshalFails (c : EventKonfiguration) : Bool :=
  c.DieGebuehren.any (fun f => f.Amount.isNaN || f.Amount.isInf)

/-- Function `saveConfigToFile`: the error, if any, and the file afterwards. -/
def saveConfigToFile (write : WriteOutcome) (file : Option EventKonfiguration)
    (c : EventKonfiguration) : Option String × Option EventKonfiguration :=
  if marshalFails c then (some "json: unsupported value", file)
  else
    match write with
    | .ok => (none, some c)
    | .failed err left => (some err, left)

/-! ## `/api/config` -/

/-- A PUT request: the header `X-Admin-Token` if present, and the outcome of
decoding the body into an `EventKonfiguration` with unknown fields
disallowed (the record, or the decoder's error text). -/
structure PutRequest where
  adminHeader : Option String
  body : Except String EventKonfiguration

/-- Method `Header.Get`: the header value, `""` when the header is absent. -/
def headerGet (h : Option String) : String := h.getD ""

def handleGetConfig (s : ServerState) : Response := writeJSON (.config s.cfg)

def handlePutConfig (env : Env) (now : Time) (write : WriteOutcome) (s : ServerState)
    (r : PutRequest) : Response × ServerState :=
  let token := headerGet r.adminHeader
  if token != adminToken env then (httpError "unauthorized" StatusUnauthorized, s)
  else
    match r.body with
    | .error err => (httpError ("invalid json: " ++ err) StatusBadRequest, s)
    | .ok updated =>
      match validateConfig updated with
      | .error err => (⟨StatusBadRequest, .validationFailed err⟩, s)
      | .ok _ =>
        let updated := { updated with UpdatedAt := now.UTC.Format }
        -- persist
        let s := { s with cfg := updated }
        match saveConfigToFile write s.configFile s.cfg with
        | (some err, file) =>
          (httpError ("failed to persist config: " ++ err) StatusInternalServerError,
            { s with configFile := file })
        | (none, file) =>
          let s := { s with configFile := file }
          (writeJSON (.config s.cfg), s)

/-! ## Access gate -/

/-- Function `cutoffTimeForEvent`: the day before the event at 18:00, in the
server's local zone `now.Location()`. -/
def cutoffTimeForEvent (now : Time) (datum : String) : Except ParseError Time :=
  match Parse .dateOnly datum with
  | .error err => .error err
  | .ok t =>
    let loc := now.Location
    -- day before
    let cutoff := Date t.Year t.Month (t.Day - 1) 18 0 0 0 loc
    .ok cutoff

def parseEnabled (env : Env) : Bool :=
  parseAppID env != "" && parseRestKey env != "" && parseServerURL env != ""

/-- What an HTTP call to the remote store comes to: building the request
fails, the round trip fails (timeout included), or a response arrives with a
status and a body, the body given by the outcome of decoding it. -/
inductive HttpReply (α : Type) where
  | requestError (err : String)
  | transportError (err : String)
  | response (status : Nat) (body : Except String α)

structure ParseDate where
  type : String
  iso : String

structure AccessTokenRecord where
  TokenHash : String
  ExpiresAt : ParseDate

/-- The loop of `validateAccessTokenParse` over the returned records. -/
def anyUnexpired (now : Time) : List AccessTokenRecord → Bool
  | [] => false
  | r :: rest =>
    if r.ExpiresAt.iso == "" then anyUnexpired now rest
    else
      match Parse .RFC3339 r.ExpiresAt.iso with
      | .ok t => if now.Before t || now.Equal t then true else anyUnexpired now rest
      | .error _ => anyUnexpired now rest

/-- Function `validateAccessTokenParse`, given the remote store's reply to the
query for the token's hash. -/
def validateAccessTokenParse (reply : HttpReply (List AccessTokenRecord)) (now : Time) : Bool :=
  match reply with
  | .requestError _ => false
  | .transportError _ => false
  | .response status body =>
    if status != StatusOK then false
    else
      match body with
      | .error _ => false
      | .ok results => anyUnexpired now.UTC results

/-- Function `validateAccessToken`: the answer and the token store afterwards. -/
def validateAccessToken (env : Env) (reply : HttpReply (List AccessTokenRecord)) (now : Time)
    (store : TokenStore) (tkn : String) : Bool × TokenStore :=
  if parseEnabled env then (validateAccessTokenParse reply now, store)
  else
    match store.get tkn with
    | none => (false, store)
    | some exp =>
      if now.UTC.After exp then (false, store.delete tkn)
      else (true, store)

/-- Function `accessStatusHandler`; `accessHeader` is the header
`X-Access-Token` if present, `now` the clock reading of the handler and
`nowToken` the later one of `validateAccessToken`. -/
def accessStatusHandler (env : Env) (reply : HttpReply (List AccessTokenRecord))
    (now nowToken : Time) (s : ServerState) (accessHeader : Option String) :
    Response × ServerState :=
  let cfgCopy := s.cfg
  let r := cutoffTimeForEvent now cfgCopy.Date
  let cutoff := match r with
    | .ok t => t
    | .error _ => Time.zero
  let now := now.In now.Location
  let isOpen := match r with
    | .ok _ => now.Before cutoff || now.Equal cutoff
    | .error _ => false
  let token := headerGet accessHeader
  let (hasValidToken, store) :=
    if token != "" then validateAccessToken env reply nowToken s.tokenStore token
    else (false, s.tokenStore)
  (writeJSON (.accessStatus isOpen cutoff.Format now.Format cfgCopy.Date hasValidToken),
    { s with tokenStore := store })

/-! ## `/api/auth` -/

structure AppSetting where
  Key : String
  Value : String

/-- Function `getRegistrationPasswordHashFromParse`, given the remote store's reply. -/
def getRegistrationPasswordHashFromParse (reply : HttpReply (List AppSetting)) :
    Except String String :=
  match reply with
  | .requestError err => .error err
  | .transportError err => .error err
  | .response status body =>
    if status != StatusOK then .error "parse get setting failed"
    else
      match body with
      | .error err => .error err
      | .ok [] => .error "no registrationPasswordHash found in AppSetting"
      | .ok (r :: _) => .ok r.Value

/-- Function `createParseAccessToken`, given the remote store's reply: the error, if any. -/
def createParseAccessToken (reply : HttpReply Unit) : Option String :=
  match reply with
  | .requestError err => some err
  | .transportError err => some err
  | .response status _ =>
    if status != StatusCreated && status != StatusOK then some "parse create token failed"
    else none

/-- A request to `/api/auth`: the method, and the outcome of decoding the
body (the password, or the decoder's error text). -/
structure AuthRequest where
  method : String
  body : Except String String

/-- What `authHandler` takes from outside the process: the clock, the outcome
of `generateRandomToken(32)`, the verdict of `bcrypt.CompareHashAndPassword`
(`true` for a nil error), and the remote store's replies. -/
structure AuthWorld where
  now : Time
  randomToken : Except String String
  bcryptMatches : String → String → Bool
  settingReply : HttpReply (List AppSetting)
  createReply : HttpReply Unit

def authHandler (env : Env) (w : AuthWorld) (store : TokenStore) (r : AuthRequest) :
    Response × TokenStore :=
  if r.method != "POST" then (httpError "method not allowed" StatusMethodNotAllowed, store)
  else
    match r.body with
    | .error err => (httpError ("invalid json: " ++ err) StatusBadRequest, store)
    | .ok password =>
      if parseEnabled env then
        match getRegistrationPasswordHashFromParse w.settingReply with
        | .error _ => (httpError "internal error" StatusInternalServerError, store)
        | .ok hash =>
          if !w.bcryptMatches hash password then
            (httpError "unauthorized" StatusUnauthorized, store)
          else
            match w.randomToken with
            | .error _ => (httpError "internal error" StatusInternalServerError, store)
            | .ok token =>
              let expires := w.now.UTC.Add twelveHours
              match createParseAccessToken w.createReply with
              | some _ => (httpError "internal error" StatusInternalServerError, store)
              | none => (writeJSON (.token token expires.Format), store)
      else
        -- Fallback: environment password and the in-memory token store
        let pw := getEnv env "REGISTRATION_PASSWORD" "secret-password"
        if password != pw then (httpError "unauthorized" StatusUnauthorized, store)
        else
          match w.randomToken with
          | .error _ => (httpError "internal error" StatusInternalServerError, store)
          | .ok token =>
            let expires := w.now.UTC.Add twelveHours
            let store := store.set token expires
            (writeJSON (.token token expires.Format), store)

/-! ## Vocabulary of the specification

Calendar dates, their `YYYY-MM-DD` text, the day before a date, and the
order of instants, stated on their own (not through the code above). -/

/-- Days of month `m` of year `y` in the Gregorian calendar. -/
def monthLength (y m : Int) : Int :=
  if m = 2 then (if y % 4 = 0 ∧ (y % 100 ≠ 0 ∨ y % 400 = 0) then 29 else 28)
  else if m = 4 ∨ m = 6 ∨ m = 9 ∨ m = 11 then 30
  else 31

/-- Year `y`, month `m`, day `d` name a calendar date with a four-digit year. -/
def IsCalendarDate (y m d : Int) : Prop :=
  0 ≤ y ∧ y ≤ 9999 ∧ 1 ≤ m ∧ m ≤ 12 ∧ 1 ≤ d ∧ d ≤ monthLength y m

instance (y m d : Int) : Decidable (IsCalendarDate y m d) := by
  unfold IsCalendarDate; infer_instance

/-- The last decimal digit of `n`, as a character. -/
def decimalDigit (n : Int) : Char := Char.ofNat (48 + (n % 10).toNat)

/-- The text `YYYY-MM-DD` of a date. -/
def isoDate (y m d : Int) : String :=
  String.mk [decimalDigit (y / 1000), decimalDigit (y / 100), decimalDigit (y / 10),
    decimalDigit y, '-', decimalDigit (m / 10), decimalDigit m, '-',
    decimalDigit (d / 10), decimalDigit d]

/-- A string is a valid `YYYY-MM-DD` calendar date. -/
def IsDateString (s : String) : Prop :=
  ∃ y m d : Int, IsCalendarDate y m d ∧ s = isoDate y m d

/-- The calendar day immediately before `y-m-d`. -/
def previousDay (y m d : Int) : Int × Int × Int :=
  if d > 1 then (y, m, d - 1)
  else if m > 1 then (y, m - 1, monthLength y (m - 1))
  else (y - 1, 12, 31)

/-- Days from the zero of the absolute time scale to the date `y-m-d`, as
`time.Date` counts them (`d` may lie outside the month). -/
def dayCount (y m d : Int) : Int :=
  daysSinceEpoch y + daysBefore (m - 1) + (if isLeap y && decide (m ≥ 3) then 1 else 0) + (d - 1)

/-- A `Time` whose nanosecond field is within the second, as every value of
`time.Time` is. -/
def WellFormed (t : Time) : Prop := 0 ≤ t.nsec ∧ t.nsec < 1000000000

instance (t : Time) : Decidable (WellFormed t) := by
  unfold WellFormed; infer_instance

/-- The instant of a `Time`, in nanoseconds since the Unix epoch. -/
def instant (t : Time) : Int := t.unix * 1000000000 + t.nsec

/-- The configuration `loadOrInitConfig` creates when there is no file,
stamped with `updatedAt`. -/
def defaultConfig (updatedAt : String) : EventKonfiguration :=
  { Year := 2025
    Date := "2025-11-01"
    StartTime := "2025-11-01T08:00:00Z"
    DieGebuehren := [⟨"Voranmeldung", .finite false 12 0⟩, ⟨"Nachmeldung", .finite false 18 0⟩]
    UpdatedAt := updatedAt }

/-- An environment with no variable set: the local backend, the default
admin token and the default registration password. -/
def envLocal : Env := fun _ => ""

/-- An environment with the credentials of the remote store set. -/
def envRemote : Env := fun key =>
  if key = "PARSE_APP_ID" then "app-id" else if key = "PARSE_REST_KEY" then "rest-key" else ""

/-- The state after a first start without a file, stamped `2025-10-01T00:00:00Z`. -/
def initialState : ServerState :=
  { cfg := defaultConfig "2025-10-01T00:00:00Z"
    tokenStore := []
    configFile := some (defaultConfig "2025-10-01T00:00:00Z") }

/-- A world for `authHandler` at 2025-10-31T18:00:00Z whose random source
yields the token `tok-1`; the remote store is unreachable. -/
def worldLocal : AuthWorld :=
  { now := ⟨1761933600, 0, FixedZone 3600⟩
    randomToken := .ok "tok-1"
    bcryptMatches := fun _ _ => false
    settingReply := .transportError "dial tcp: timeout"
    createReply := .transportError "dial tcp: timeout" }

/-- A world in which the remote store answers the query for the password hash
with one setting, and `bcrypt` finds no password matching it. -/
def worldWrongPassword : AuthWorld :=
  { worldLocal with
    settingReply := .response 200 (.ok [⟨"registrationPasswordHash", "$2a$10$hash"⟩]) }

/-- A well-formed login request with the default registration password. -/
def loginRequest : AuthRequest := ⟨"POST", .ok "secret-password"⟩

/-- A well-formed login request with a wrong password. -/
def badLoginRequest : AuthRequest := ⟨"POST", .ok "guess"⟩

/-! ## Proofs

### The calendar algorithms: `absDate` inverts the day count of `Date` -/

theorem daysBefore_estimate (day k : Int) (hk : 0 ≤ k ∧ k ≤ 11)
    (h : daysBefore k ≤ day ∧ day < daysBefore (k + 1)) :
    (if day ≥ daysBefore (day / 31 + 1) then (day / 31 + 1, daysBefore (day / 31 + 1))
      else (day / 31, daysBefore (day / 31))) = (k, daysBefore k) := by
  obtain ⟨h1, h2⟩ := h
  have hk' : k = 0 ∨ k = 1 ∨ k = 2 ∨ k = 3 ∨ k = 4 ∨ k = 5 ∨ k = 6 ∨ k = 7 ∨ k = 8 ∨
      k = 9 ∨ k = 10 ∨ k = 11 := by omega
  rcases hk' with rfl | rfl | rfl | rfl | rfl | rfl | rfl | rfl | rfl | rfl | rfl | rfl <;>
  simp [daysBefore, daysBeforeTable] at h1 h2 <;>
  obtain ⟨q, hq, hq'⟩ : ∃ q : Int, day / 31 = q ∧ (q = 0 ∨ q = 1 ∨ q = 2 ∨ q = 3 ∨ q = 4 ∨ q = 5
      ∨ q = 6 ∨ q = 7 ∨ q = 8 ∨ q = 9 ∨ q = 10 ∨ q = 11) := ⟨_, rfl, by omega⟩ <;>
  rw [hq] <;>
  rcases hq' with rfl | rfl | rfl | rfl | rfl | rfl | rfl | rfl | rfl | rfl | rfl | rfl <;>
  (try simp [daysBefore, daysBeforeTable]) <;>
  omega

theorem monthDay_spec (year m d : Int) (hm : 1 ≤ m ∧ m ≤ 12)
    (hd : 1 ≤ d ∧ d ≤ daysIn m year) :
    monthDay year (daysBefore (m - 1) + (if isLeap year && m ≥ 3 then 1 else 0) + (d - 1))
      = (m, d) := by
  obtain ⟨hd1, hd2⟩ := hd
  have hm' : m = 1 ∨ m = 2 ∨ m = 3 ∨ m = 4 ∨ m = 5 ∨ m = 6 ∨ m = 7 ∨ m = 8 ∨ m = 9 ∨
      m = 10 ∨ m = 11 ∨ m = 12 := by omega
  cases hl : isLeap year
  · have hb : daysBefore (m - 1) ≤ daysBefore (m - 1) + (d - 1) ∧
        daysBefore (m - 1) + (d - 1) < daysBefore (m - 1 + 1) := by
      simp [daysIn, hl] at hd2
      constructor
      · omega
      · simp; omega
    have key := daysBefore_estimate _ (m - 1) (by omega) hb
    simp only [monthDay, hl, Bool.false_and, Bool.false_eq_true, if_false, add_zero]
    rw [key]
    simp
  · by_cases h3 : 3 ≤ m
    · have hb : daysBefore (m - 1) ≤ daysBefore (m - 1) + (d - 1) ∧
          daysBefore (m - 1) + (d - 1) < daysBefore (m - 1 + 1) := by
        have hm2 : ¬ m = 2 := by omega
        simp [daysIn, hl, hm2] at hd2
        constructor
        · omega
        · simp; omega
      have h59 : 59 ≤ daysBefore (m - 1) := by
        rcases hm' with rfl | rfl | rfl | rfl | rfl | rfl | rfl | rfl | rfl | rfl | rfl | rfl <;>
          simp [daysBefore, daysBeforeTable] <;> omega
      have key := daysBefore_estimate _ (m - 1) (by omega) hb
      have e1 : (daysBefore (m - 1) + 1 + (d - 1) == 31 + 29 - 1) = false := by
        simp; omega
      have e2 : decide (daysBefore (m - 1) + 1 + (d - 1) > 31 + 29 - 1) = true := by
        simp; omega
      have e3 : daysBefore (m - 1) + 1 + (d - 1) - 1 = daysBefore (m - 1) + (d - 1) := by omega
      simp only [monthDay, hl, h3, ge_iff_le, decide_True, Bool.true_and, if_true, e1, e2, e3,
        Bool.false_eq_true, if_false]
      rw [key]
      simp
    · have h3' : decide (m ≥ 3) = false := by simp; omega
      by_cases h29 : m = 2 ∧ d = 29
      · obtain ⟨rfl, rfl⟩ := h29
        simp [monthDay, hl, daysBefore, daysBeforeTable]
      · have hb : daysBefore (m - 1) ≤ daysBefore (m - 1) + (d - 1) ∧
            daysBefore (m - 1) + (d - 1) < daysBefore (m - 1 + 1) := by
          have hm12 : m = 1 ∨ m = 2 := by omega
          rcases hm12 with rfl | rfl <;>
            simp [daysIn, hl, daysBefore, daysBeforeTable] at hd2 ⊢ <;> omega
        have h59 : daysBefore (m - 1) + (d - 1) < 59 := by
          have hm12 : m = 1 ∨ m = 2 := by omega
          rcases hm12 with rfl | rfl <;>
            simp [daysIn, hl, daysBefore, daysBeforeTable] at hd2 ⊢ <;> omega
        have key := daysBefore_estimate _ (m - 1) (by omega) hb
        have e1 : (daysBefore (m - 1) + (d - 1) == 31 + 29 - 1) = false := by
          simp; omega
        have e2 : decide (daysBefore (m - 1) + (d - 1) > 31 + 29 - 1) = false := by
          simp; omega
        simp only [monthDay, hl, h3', Bool.true_and, Bool.and_false, e1, e2,
          Bool.false_eq_true, if_false, add_zero]
        rw [key]
        simp

/-- The year and the day of the year are recovered from an absolute time
(`absYday` inverts `daysSinceEpoch`). -/
theorem absYday_spec (year yd secs : Int)
    (hyd : 0 ≤ yd ∧ yd < (if isLeap year then 366 else 365))
    (hs : 0 ≤ secs ∧ secs < 86400) :
    absYday ((daysSinceEpoch year + yd) * secondsPerDay + secs) = (year, yd) := by
  obtain ⟨q, hq⟩ : ∃ q, q = (year - absoluteZeroYear) / 400 := ⟨_, rfl⟩
  obtain ⟨c, hc⟩ : ∃ c, c = (year - absoluteZeroYear - 400 * q) / 100 := ⟨_, rfl⟩
  obtain ⟨f, hf⟩ : ∃ f, f = (year - absoluteZeroYear - 400 * q - 100 * c) / 4 := ⟨_, rfl⟩
  obtain ⟨e, he⟩ : ∃ e, e = year - absoluteZeroYear - 400 * q - 100 * c - 4 * f := ⟨_, rfl⟩
  have hdse : daysSinceEpoch year = 146097 * q + 36524 * c + 1461 * f + 365 * e := by
    simp only [daysSinceEpoch, daysPer400Years, daysPer100Years, daysPer4Years]
    rw [← hq, ← hc, ← hf, ← he]; norm_num
  have hyear : year = 400 * q + 100 * c + 4 * f + e + absoluteZeroYear := by omega
  simp only [absoluteZeroYear] at hq hc hf he
  have bc : 0 ≤ c ∧ c ≤ 3 := by omega
  have bf : 0 ≤ f ∧ f ≤ 24 := by omega
  have be : 0 ≤ e ∧ e ≤ 3 := by omega
  have hleap : isLeap year = true ↔ (e = 3 ∧ (f ≠ 24 ∨ c = 3)) := by
    simp [isLeap]
    omega
  have hlt : yd < 365 ∨ (yd = 365 ∧ e = 3 ∧ (f ≠ 24 ∨ c = 3)) := by
    by_cases hl : isLeap year = true
    · have := hleap.1 hl
      simp [hl] at hyd
      omega
    · simp [hl] at hyd
      omega
  have hyd0 := hyd.1
  have hdiv : ((daysSinceEpoch year + yd) * secondsPerDay + secs) / secondsPerDay
      = 146097 * q + 36524 * c + 1461 * f + 365 * e + yd := by
    rw [hdse]; simp only [secondsPerDay, secondsPerHour, secondsPerMinute]; omega
  clear hleap hyd hq hc hf he hdse hs
  show
    let d := ((daysSinceEpoch year + yd) * secondsPerDay + secs) / secondsPerDay
    let n1 := d / daysPer400Years
    let d1 := d - daysPer400Years * n1
    let n2 := d1 / daysPer100Years
    let n2' := n2 - n2 / 4
    let d2 := d1 - daysPer100Years * n2'
    let n3 := d2 / daysPer4Years
    let d3 := d2 - daysPer4Years * n3
    let n4 := d3 / 365
    let n4' := n4 - n4 / 4
    (400 * n1 + 100 * n2' + 4 * n3 + n4' + absoluteZeroYear, d3 - 365 * n4') = (year, yd)
  intro d n1 d1 n2 n2' d2 n3 d3 n4 n4'
  have hd : d = 146097 * q + 36524 * c + 1461 * f + 365 * e + yd := hdiv
  have h1 : n1 = q := by
    show d / 146097 = q
    rw [hd]; omega
  have hd1 : d1 = 36524 * c + 1461 * f + 365 * e + yd := by
    show d - 146097 * n1 = _
    rw [h1, hd]; omega
  have hn2 : n2 = c ∨ (n2 = 4 ∧ c = 3) := by
    show d1 / 36524 = c ∨ (d1 / 36524 = 4 ∧ c = 3)
    rw [hd1]
    have hr : 1461 * f + 365 * e + yd < 36524 ∨
        (1461 * f + 365 * e + yd = 36524 ∧ c = 3) := by omega
    rcases hr with hr | ⟨hr, hc3⟩
    · left; omega
    · right; omega
  have h2 : n2' = c := by
    show n2 - n2 / 4 = c
    rcases hn2 with h | ⟨h, h'⟩ <;> rw [h] <;> omega
  have hd2 : d2 = 1461 * f + 365 * e + yd := by
    show d1 - 36524 * n2' = _
    rw [h2, hd1]; omega
  have h3 : n3 = f := by
    show d2 / 1461 = f
    rw [hd2]; omega
  have hd3 : d3 = 365 * e + yd := by
    show d2 - 1461 * n3 = _
    rw [h3, hd2]; omega
  have hn4 : n4 = e ∨ (n4 = 4 ∧ e = 3) := by
    show d3 / 365 = e ∨ (d3 / 365 = 4 ∧ e = 3)
    rw [hd3]
    rcases hlt with h | ⟨h, h', _⟩
    · left; omega
    · right; omega
  have h4 : n4' = e := by
    show n4 - n4 / 4 = e
    rcases hn4 with h | ⟨h, h'⟩ <;> rw [h] <;> omega
  rw [h1, h2, h3, h4, hd3, ← hyear]
  congr 1
  omega

/-- The calendar date is recovered from an absolute time (`absDate` inverts
the day count of `Date`). -/
theorem absDate_spec (year m d secs : Int)
    (hm : 1 ≤ m ∧ m ≤ 12) (hd : 1 ≤ d ∧ d ≤ daysIn m year)
    (hs : 0 ≤ secs ∧ secs < 86400) :
    absDate ((daysSinceEpoch year + daysBefore (m - 1)
        + (if isLeap year && m ≥ 3 then 1 else 0) + (d - 1)) * secondsPerDay + secs)
      = (year, m, d) := by
  have hyd : 0 ≤ daysBefore (m - 1) + (if isLeap year && m ≥ 3 then 1 else 0) + (d - 1) ∧
      daysBefore (m - 1) + (if isLeap year && m ≥ 3 then 1 else 0) + (d - 1)
        < (if isLeap year then 366 else 365) := by
    obtain ⟨hd1, hd2⟩ := hd
    have hm' : m = 1 ∨ m = 2 ∨ m = 3 ∨ m = 4 ∨ m = 5 ∨ m = 6 ∨ m = 7 ∨ m = 8 ∨ m = 9 ∨
        m = 10 ∨ m = 11 ∨ m = 12 := by omega
    rcases hm' with rfl | rfl | rfl | rfl | rfl | rfl | rfl | rfl | rfl | rfl | rfl | rfl <;>
    cases hl : isLeap year <;>
    simp [daysIn, daysBefore, daysBeforeTable, hl] at hd2 ⊢ <;> omega
  have e1 : daysSinceEpoch year + daysBefore (m - 1)
        + (if isLeap year && m ≥ 3 then 1 else 0) + (d - 1)
      = daysSinceEpoch year
        + (daysBefore (m - 1) + (if isLeap year && m ≥ 3 then 1 else 0) + (d - 1)) := by
    omega
  rw [e1]
  simp only [absDate]
  rw [absYday_spec year _ secs hyd hs]
  simp only [monthDay_spec year m d hm hd]

/-! ### Parsing a date: what `getDate` accepts -/

theorem isDigit_toNat (c : Char) (h : c.isDigit = true) : 48 ≤ c.toNat ∧ c.toNat ≤ 57 := by
  simp only [Char.isDigit, Bool.and_eq_true, decide_eq_true_eq] at h
  obtain ⟨h1, h2⟩ := h
  have h1' : (48 : UInt32).toNat ≤ c.val.toNat := h1
  have h2' : c.val.toNat ≤ (57 : UInt32).toNat := h2
  exact ⟨h1', h2'⟩

theorem digitVal_range (c : Char) (h : c.isDigit = true) : 0 ≤ digitVal c ∧ digitVal c ≤ 9 := by
  have := isDigit_toNat c h
  unfold digitVal
  omega

theorem decimalDigit_isDigit (n : Int) :
    (decimalDigit n).isDigit = true ∧ digitVal (decimalDigit n) = n % 10 := by
  have h10 : (n % 10).toNat < 10 := by omega
  have hk : ((n % 10).toNat : Int) = n % 10 := by omega
  unfold decimalDigit digitVal
  rw [← hk]
  generalize (n % 10).toNat = k at h10
  interval_cases k <;> decide

theorem decimalDigit_digitVal (c : Char) (h : c.isDigit = true) :
    decimalDigit (digitVal c) = c := by
  have := isDigit_toNat c h
  unfold decimalDigit digitVal
  have e : 48 + (((c.toNat : Int) - 48) % 10).toNat = c.toNat := by omega
  rw [e, Char.ofNat_toNat]

theorem decimalDigit_of_digit (c : Char) (n : Int) (h : c.isDigit = true)
    (hn : n % 10 = digitVal c) : decimalDigit n = c := by
  rw [← decimalDigit_digitVal c h]
  unfold decimalDigit
  have := digitVal_range c h
  rw [hn]
  congr 2
  omega

theorem getLongYear_ok (v rest : List Char) (y : Int) (h : getLongYear v = .ok (y, rest)) :
    ∃ c0 c1 c2 c3, v = c0 :: c1 :: c2 :: c3 :: rest ∧ c0.isDigit = true ∧ c1.isDigit = true ∧
      c2.isDigit = true ∧ c3.isDigit = true ∧
      y = ((digitVal c0 * 10 + digitVal c1) * 10 + digitVal c2) * 10 + digitVal c3 := by
  match v, h with
  | c0 :: c1 :: c2 :: c3 :: r, h =>
    simp only [getLongYear] at h
    split at h
    · rename_i hd
      simp only [Bool.and_eq_true] at hd
      simp only [Except.ok.injEq, Prod.mk.injEq] at h
      obtain ⟨hy, hr⟩ := h
      subst hr
      exact ⟨c0, c1, c2, c3, rfl, hd.1.1.1, hd.1.1.2, hd.1.2, hd.2, hy.symm⟩
    · cases h
  | [], h => simp [getLongYear] at h
  | [_], h => simp [getLongYear] at h
  | [_, _], h => simp [getLongYear] at h
  | [_, _, _], h => simp [getLongYear] at h

theorem skip_ok (v rest : List Char) (p : Char) (h : skip v p = .ok rest) : v = p :: rest := by
  match v, h with
  | [], h => simp [skip] at h
  | c :: r, h =>
    simp only [skip] at h
    split at h
    · rename_i hc
      simp only [Except.ok.injEq] at h
      simp only [beq_iff_eq] at hc
      rw [hc, h]
    · cases h

theorem getnum_fixed_ok (v rest : List Char) (n : Int) (h : getnum v true = .ok (n, rest)) :
    ∃ c0 c1, v = c0 :: c1 :: rest ∧ c0.isDigit = true ∧ c1.isDigit = true ∧
      n = digitVal c0 * 10 + digitVal c1 := by
  match v, h with
  | [], h => simp [getnum] at h
  | [c0], h =>
    simp only [getnum] at h
    split at h
    · cases h
    · simp at h
  | c0 :: c1 :: r, h =>
    simp only [getnum] at h
    split at h
    · cases h
    · rename_i h0
      split at h
      · simp at h
      · rename_i h1
        simp only [Except.ok.injEq, Prod.mk.injEq] at h
        obtain ⟨hn, hr⟩ := h
        subst hr
        simp only [Bool.not_eq_true, Bool.not_eq_eq_eq_not, Bool.not_true, Bool.not_false] at h0 h1
        simp only [Bool.not_eq_true', Bool.not_eq_false] at h0 h1
        exact ⟨c0, c1, rfl, by simpa using h0, by simpa using h1, hn.symm⟩

theorem getDate_ok (v rest : List Char) (y m d : Int) (h : getDate v = .ok (y, m, d, rest)) :
    (0 ≤ y ∧ y ≤ 9999) ∧ (1 ≤ m ∧ m ≤ 12) ∧ (0 ≤ d ∧ d ≤ 99) ∧
      v = (isoDate y m d).toList ++ rest := by
  unfold getDate at h
  split at h
  · cases h
  · rename_i year v1 hY
    split at h
    · cases h
    · rename_i v2 hs1
      split at h
      · cases h
      · rename_i month v3 hM
        split at h
        · cases h
        · rename_i hmr
          split at h
          · cases h
          · rename_i v4 hs2
            split at h
            · cases h
            · rename_i day v5 hD
              simp only [Except.ok.injEq, Prod.mk.injEq] at h
              obtain ⟨rfl, rfl, rfl, rfl⟩ := h
              obtain ⟨c0, c1, c2, c3, rfl, d0, d1, d2, d3, rfl⟩ := getLongYear_ok _ _ _ hY
              have e1 := skip_ok _ _ _ hs1
              obtain ⟨m0, m1, e2, dm0, dm1, rfl⟩ := getnum_fixed_ok _ _ _ hM
              have e3 := skip_ok _ _ _ hs2
              obtain ⟨a0, a1, e4, da0, da1, rfl⟩ := getnum_fixed_ok _ _ _ hD
              subst e4; subst e3; subst e2; subst e1
              have r0 := digitVal_range c0 d0
              have r1 := digitVal_range c1 d1
              have r2 := digitVal_range c2 d2
              have r3 := digitVal_range c3 d3
              have rm0 := digitVal_range m0 dm0
              have rm1 := digitVal_range m1 dm1
              have ra0 := digitVal_range a0 da0
              have ra1 := digitVal_range a1 da1
              refine ⟨by omega, by omega, by omega, ?_⟩
              simp only [isoDate, List.cons_append, List.nil_append]
              rw [decimalDigit_of_digit c0 _ d0 (by omega), decimalDigit_of_digit c1 _ d1 (by omega),
                decimalDigit_of_digit c2 _ d2 (by omega), decimalDigit_of_digit c3 _ d3 (by omega),
                decimalDigit_of_digit m0 _ dm0 (by omega), decimalDigit_of_digit m1 _ dm1 (by omega),
                decimalDigit_of_digit a0 _ da0 (by omega), decimalDigit_of_digit a1 _ da1 (by omega)]
              rfl

theorem getDate_isoDate (y m d : Int) (hy : 0 ≤ y ∧ y ≤ 9999) (hm : 1 ≤ m ∧ m ≤ 12)
    (hd : 0 ≤ d ∧ d ≤ 99) (rest : List Char) :
    getDate ((isoDate y m d).toList ++ rest) = .ok (y, m, d, rest) := by
  have y0 := decimalDigit_isDigit (y / 1000)
  have y1 := decimalDigit_isDigit (y / 100)
  have y2 := decimalDigit_isDigit (y / 10)
  have y3 := decimalDigit_isDigit y
  have m0 := decimalDigit_isDigit (m / 10)
  have m1 := decimalDigit_isDigit m
  have d0 := decimalDigit_isDigit (d / 10)
  have d1 := decimalDigit_isDigit d
  have ey : ((y / 1000 % 10 * 10 + y / 100 % 10) * 10 + y / 10 % 10) * 10 + y % 10 = y := by
    omega
  have em : m / 10 % 10 * 10 + m % 10 = m := by omega
  have ed : d / 10 % 10 * 10 + d % 10 = d := by omega
  have hmr : ¬ (m ≤ 0 ∨ 12 < m) := by omega
  simp only [isoDate, String.toList, List.cons_append, List.nil_append, getDate, getLongYear,
    skip, getnum,
    y0.1, y1.1, y2.1, y3.1, m0.1, m1.1, d0.1, d1.1, y0.2, y1.2, y2.2, y3.2, m0.2, m1.2,
    d0.2, d1.2, Bool.and_self, if_true, beq_self_eq_true, Bool.not_true, Bool.false_eq_true,
    if_false, ey, em, ed, hmr]

/-! ### `Date` on arguments within range, the day before a date -/

theorem norm_id (hi lo base : Int) (h : 0 ≤ lo ∧ lo < base) : norm hi lo base = (hi, lo) := by
  unfold GoTime.norm
  have h1 : ¬ lo < 0 := by omega
  have h2 : ¬ lo ≥ base := by omega
  simp only [h1, h2, if_false]

theorem Date_inrange (y m d h mi s ns : Int) (loc : Location) (hm : 1 ≤ m ∧ m ≤ 12)
    (hh : 0 ≤ h ∧ h < 24) (hmi : 0 ≤ mi ∧ mi < 60) (hs : 0 ≤ s ∧ s < 60)
    (hns : 0 ≤ ns ∧ ns < 1000000000) :
    Date y m d h mi s ns loc =
      ⟨zoneShift loc (dayCount y m d * secondsPerDay
        + (h * secondsPerHour + mi * secondsPerMinute + s)
        + (absoluteToInternal + internalToUnix)), ns, loc⟩ := by
  unfold Date dayCount
  simp only [norm_id y (m - 1) 12 (by omega), norm_id s ns 1000000000 hns, norm_id mi s 60 hs,
    norm_id h mi 60 hmi, norm_id d h 24 hh, Int.sub_add_cancel]
  by_cases hl : (isLeap y && decide (m ≥ 3)) = true
  · simp only [hl, if_true]
  · simp only [hl, if_false, Bool.false_eq_true, add_zero]

theorem isLeap_iff (y : Int) :
    isLeap y = true ↔ (y % 4 = 0 ∧ (y % 100 ≠ 0 ∨ y % 400 = 0)) := by
  simp [isLeap]

theorem daysIn_eq_monthLength (y m : Int) (hm : 1 ≤ m ∧ m ≤ 12) :
    daysIn m y = monthLength y m := by
  by_cases h2 : m = 2
  · subst h2
    unfold monthLength
    rw [if_pos rfl]
    by_cases hL : (y % 4 = 0 ∧ (y % 100 ≠ 0 ∨ y % 400 = 0))
    · rw [if_pos hL]
      simp [daysIn, (isLeap_iff y).2 hL]
    · rw [if_neg hL]
      have hl : isLeap y = false := by
        cases h : isLeap y
        · rfl
        · exact absurd ((isLeap_iff y).1 h) hL
      simp [daysIn, hl, daysBefore, daysBeforeTable]
  · have hm' : m = 1 ∨ m = 3 ∨ m = 4 ∨ m = 5 ∨ m = 6 ∨ m = 7 ∨ m = 8 ∨ m = 9 ∨
        m = 10 ∨ m = 11 ∨ m = 12 := by omega
    rcases hm' with rfl | rfl | rfl | rfl | rfl | rfl | rfl | rfl | rfl | rfl | rfl <;>
    simp [daysIn, daysBefore, daysBeforeTable, monthLength]

theorem daysSinceEpoch_succ (y : Int) :
    daysSinceEpoch (y + 1) = daysSinceEpoch y + (if isLeap y then 366 else 365) := by
  have hl := isLeap_iff y
  simp only [daysSinceEpoch, daysPer400Years, daysPer100Years, daysPer4Years, absoluteZeroYear]
  by_cases h : isLeap y = true
  · simp only [h, if_true]
    have := hl.1 h
    omega
  · simp only [h, if_false, Bool.false_eq_true]
    have : ¬ (y % 4 = 0 ∧ (y % 100 ≠ 0 ∨ y % 400 = 0)) := fun hc => h (hl.2 hc)
    omega

theorem previousDay_valid (y m d : Int) (h : IsCalendarDate y m d) :
    (1 ≤ (previousDay y m d).2.1 ∧ (previousDay y m d).2.1 ≤ 12) ∧
    (1 ≤ (previousDay y m d).2.2 ∧
      (previousDay y m d).2.2 ≤ monthLength (previousDay y m d).1 (previousDay y m d).2.1) := by
  obtain ⟨hy0, hy1, hm0, hm1, hd0, hd1⟩ := h
  unfold previousDay
  by_cases h1 : d > 1
  · simp only [h1, if_true]
    exact ⟨⟨hm0, hm1⟩, by omega, by omega⟩
  · by_cases h2 : m > 1
    · simp only [h1, h2, if_true, if_false]
      refine ⟨⟨by omega, by omega⟩, ?_, le_refl _⟩
      unfold monthLength
      split_ifs <;> omega
    · simp only [h1, h2, if_false]
      refine ⟨⟨by omega, by omega⟩, by omega, ?_⟩
      simp [monthLength]

theorem dayCount_previousDay (y m d : Int) (h : IsCalendarDate y m d) :
    dayCount y m (d - 1)
      = dayCount (previousDay y m d).1 (previousDay y m d).2.1 (previousDay y m d).2.2 := by
  obtain ⟨hy0, hy1, hm0, hm1, hd0, hd1⟩ := h
  unfold previousDay
  by_cases h1 : d > 1
  · simp only [h1, if_true]
  · have hd : d = 1 := by omega
    subst hd
    by_cases h2 : m > 1
    · simp only [h1, h2, if_true, if_false]
      rw [← daysIn_eq_monthLength y (m - 1) (by omega)]
      have hm' : m = 2 ∨ m = 3 ∨ m = 4 ∨ m = 5 ∨ m = 6 ∨ m = 7 ∨ m = 8 ∨ m = 9 ∨
          m = 10 ∨ m = 11 ∨ m = 12 := by omega
      rcases hm' with rfl | rfl | rfl | rfl | rfl | rfl | rfl | rfl | rfl | rfl | rfl <;>
      cases hl : isLeap y <;>
      simp [dayCount, daysIn, daysBefore, daysBeforeTable, hl] <;> omega
    · have hm : m = 1 := by omega
      subst hm
      simp only [h1, h2, if_false]
      have hs := daysSinceEpoch_succ (y - 1)
      rw [Int.sub_add_cancel] at hs
      cases hl : isLeap (y - 1) <;>
      simp [dayCount, daysBefore, daysBeforeTable, hl, hs] <;> omega

theorem zoneShift_FixedZone (off unix : Int) : zoneShift (FixedZone off) unix = unix - off := by
  unfold zoneShift FixedZone
  by_cases h : off = 0
  · simp [h]
  · simp [h]

theorem Parse_dateOnly_iff (s : String) (t : Time) :
    Parse .dateOnly s = .ok t ↔
      ∃ y m d : Int, IsCalendarDate y m d ∧ s = isoDate y m d ∧ t = Date y m d 0 0 0 0 UTC := by
  constructor
  · intro h
    simp only [Parse, parseDateOnly] at h
    split at h
    · cases h
    · rename_i y m d rest hg
      obtain ⟨hy, hm, hd, hv⟩ := getDate_ok _ _ _ _ _ hg
      split at h
      · cases h
      · rename_i hrest
        split at h
        · cases h
        · rename_i hday
          simp only [Except.ok.injEq] at h
          have hrest' : rest = [] := by simpa using hrest
          subst hrest'
          rw [daysIn_eq_monthLength y m hm] at hday
          refine ⟨y, m, d, ⟨hy.1, hy.2, hm.1, hm.2, by omega, by omega⟩, ?_, h.symm⟩
          rw [List.append_nil] at hv
          exact String.ext hv
  · rintro ⟨y, m, d, ⟨hy0, hy1, hm0, hm1, hd0, hd1⟩, rfl, rfl⟩
    have hd99 : d ≤ 99 := by
      have : monthLength y m ≤ 31 := by unfold monthLength; split_ifs <;> omega
      omega
    have hg := getDate_isoDate y m d ⟨hy0, hy1⟩ ⟨hm0, hm1⟩ ⟨by omega, hd99⟩ []
    rw [List.append_nil] at hg
    have hday : ¬ (d < 1 ∨ d > daysIn m y) := by
      rw [daysIn_eq_monthLength y m ⟨hm0, hm1⟩]; omega
    simp only [Parse, parseDateOnly, hg, ne_eq, not_true_eq_false, if_false, hday]

theorem abs_Date_FixedZone (y m d h mi s ns off : Int) (hm : 1 ≤ m ∧ m ≤ 12)
    (hh : 0 ≤ h ∧ h < 24) (hmi : 0 ≤ mi ∧ mi < 60) (hs : 0 ≤ s ∧ s < 60)
    (hns : 0 ≤ ns ∧ ns < 1000000000) :
    (Date y m d h mi s ns (FixedZone off)).abs
      = dayCount y m d * secondsPerDay + (h * 3600 + mi * 60 + s) := by
  rw [Date_inrange y m d h mi s ns _ hm hh hmi hs hns]
  simp only [Time.abs, zoneShift_FixedZone]
  simp only [FixedZone, internalToAbsolute, internalToUnix, secondsPerHour, secondsPerMinute]
  omega

/-- Reading back a time built by `Date` in a zone of fixed offset. -/
theorem Date_read_FixedZone (y m d h mi s ns off : Int) (hm : 1 ≤ m ∧ m ≤ 12)
    (hd : 1 ≤ d ∧ d ≤ monthLength y m)
    (hh : 0 ≤ h ∧ h < 24) (hmi : 0 ≤ mi ∧ mi < 60) (hs : 0 ≤ s ∧ s < 60)
    (hns : 0 ≤ ns ∧ ns < 1000000000) :
    (Date y m d h mi s ns (FixedZone off)).Year = y ∧
    (Date y m d h mi s ns (FixedZone off)).Month = m ∧
    (Date y m d h mi s ns (FixedZone off)).Day = d ∧
    (Date y m d h mi s ns (FixedZone off)).Clock = (h, mi, s) := by
  have habs := abs_Date_FixedZone y m d h mi s ns off hm hh hmi hs hns
  have hdate := absDate_spec y m d (h * 3600 + mi * 60 + s) hm
    (by rw [daysIn_eq_monthLength y m hm]; exact hd) (by omega)
  have hdate' : absDate (dayCount y m d * secondsPerDay + (h * 3600 + mi * 60 + s))
      = (y, m, d) := hdate
  simp only [Time.Year, Time.Month, Time.Day, Time.Clock, habs, hdate']
  refine ⟨trivial, trivial, trivial, ?_⟩
  simp only [absClock, secondsPerDay, secondsPerHour, secondsPerMinute, Prod.mk.injEq]
  have e1 : (dayCount y m d * (24 * (60 * 60)) + (h * 3600 + mi * 60 + s)) % (24 * (60 * 60))
      = h * 3600 + mi * 60 + s := by omega
  rw [e1]
  refine ⟨by omega, by omega, by omega⟩

/-! ### The cutoff -/

theorem UTC_eq_FixedZone : UTC = FixedZone 0 := rfl

theorem Date_previousDay (y m d : Int) (loc : Location) (h : IsCalendarDate y m d) :
    Date y m (d - 1) 18 0 0 0 loc
      = Date (previousDay y m d).1 (previousDay y m d).2.1 (previousDay y m d).2.2
          18 0 0 0 loc := by
  have hv := previousDay_valid y m d h
  rw [Date_inrange y m (d - 1) 18 0 0 0 loc ⟨h.2.2.1, h.2.2.2.1⟩ (by omega) (by omega) (by omega)
      (by omega),
    Date_inrange _ _ _ 18 0 0 0 loc hv.1 (by omega) (by omega) (by omega) (by omega),
    dayCount_previousDay y m d h]

theorem cutoffTimeForEvent_isoDate (now : Time) (y m d : Int) (h : IsCalendarDate y m d) :
    cutoffTimeForEvent now (isoDate y m d)
      = .ok (Date (previousDay y m d).1 (previousDay y m d).2.1 (previousDay y m d).2.2
          18 0 0 0 now.Location) := by
  have hp : Parse .dateOnly (isoDate y m d) = .ok (Date y m d 0 0 0 0 UTC) :=
    (Parse_dateOnly_iff _ _).2 ⟨y, m, d, h, rfl, rfl⟩
  obtain ⟨hy0, hy1, hm0, hm1, hd0, hd1⟩ := h
  have hr := Date_read_FixedZone y m d 0 0 0 0 0 ⟨hm0, hm1⟩ ⟨hd0, hd1⟩ (by omega) (by omega)
    (by omega) (by omega)
  rw [← UTC_eq_FixedZone] at hr
  simp only [cutoffTimeForEvent, hp, hr.1, hr.2.1, hr.2.2.1]
  rw [Date_previousDay y m d _ ⟨hy0, hy1, hm0, hm1, hd0, hd1⟩]

theorem cutoffTimeForEvent_error (now : Time) (s : String) (hs : ¬ IsDateString s) :
    ∃ err, cutoffTimeForEvent now s = .error err := by
  cases hp : Parse .dateOnly s with
  | error err => exact ⟨err, by simp only [cutoffTimeForEvent, hp]⟩
  | ok t =>
    obtain ⟨y, m, d, hd, hs', _⟩ := (Parse_dateOnly_iff s t).1 hp
    exact absurd ⟨y, m, d, hd, hs'⟩ hs

/-- C2: for a valid `YYYY-MM-DD` date, `cutoffTimeForEvent` succeeds with `time.Date`
of the calendar day before (the last day of the previous month, or December 31
of the previous year, when the date is a first) at 18:00:00 in the server's
zone; in a zone of fixed offset the result reads back as that day, 18:00:00;
for every string that is not such a date it returns an error. -/
theorem cutoffTimeForEvent_dayBefore (now : Time) (s : String) :
    (∀ y m d : Int, IsCalendarDate y m d → s = isoDate y m d →
      cutoffTimeForEvent now s
        = .ok (Date (previousDay y m d).1 (previousDay y m d).2.1 (previousDay y m d).2.2
            18 0 0 0 now.Location) ∧
      ∀ off : Int, now.Location = FixedZone off →
        ∃ t, cutoffTimeForEvent now s = .ok t ∧
          (t.Year, t.Month, t.Day) = previousDay y m d ∧ t.Clock = (18, 0, 0) ∧ t.nsec = 0) ∧
    (¬ IsDateString s → ∃ err, cutoffTimeForEvent now s = .error err) := by
  constructor
  · rintro y m d h rfl
    refine ⟨cutoffTimeForEvent_isoDate now y m d h, ?_⟩
    intro off hoff
    refine ⟨_, cutoffTimeForEvent_isoDate now y m d h, ?_⟩
    have hv := previousDay_valid y m d h
    rw [hoff]
    have hr := Date_read_FixedZone (previousDay y m d).1 (previousDay y m d).2.1
      (previousDay y m d).2.2 18 0 0 0 off hv.1 hv.2 (by omega) (by omega) (by omega) (by omega)
    refine ⟨?_, hr.2.2.2, ?_⟩
    · rw [hr.1, hr.2.1, hr.2.2.1]
    · rw [Date_inrange _ _ _ 18 0 0 0 _ hv.1 (by omega) (by omega) (by omega) (by omega)]
  · exact cutoffTimeForEvent_error now s

/-- C2, at 2025-11-01, 2024-03-01, 2025-01-01 and at the non-date 2025-02-30,
in the zone one hour east of UTC. -/
theorem cutoffTimeForEvent_dayBefore_witness :
    cutoffTimeForEvent ⟨0, 0, FixedZone 3600⟩ "2025-11-01"
      = .ok (Date 2025 10 31 18 0 0 0 (FixedZone 3600)) ∧
    cutoffTimeForEvent ⟨0, 0, FixedZone 3600⟩ "2024-03-01"
      = .ok (Date 2024 2 29 18 0 0 0 (FixedZone 3600)) ∧
    cutoffTimeForEvent ⟨0, 0, FixedZone 3600⟩ "2025-01-01"
      = .ok (Date 2024 12 31 18 0 0 0 (FixedZone 3600)) ∧
    (∃ err, cutoffTimeForEvent ⟨0, 0, FixedZone 3600⟩ "2025-02-30" = .error err) :=
  ⟨((cutoffTimeForEvent_dayBefore ⟨0, 0, FixedZone 3600⟩ "2025-11-01").1 2025 11 1
      (by decide) (by decide)).1,
   ((cutoffTimeForEvent_dayBefore ⟨0, 0, FixedZone 3600⟩ "2024-03-01").1 2024 3 1
      (by decide) (by decide)).1,
   ((cutoffTimeForEvent_dayBefore ⟨0, 0, FixedZone 3600⟩ "2025-01-01").1 2025 1 1
      (by decide) (by decide)).1,
   (cutoffTimeForEvent_dayBefore ⟨0, 0, FixedZone 3600⟩ "2025-02-30").2 (by
      rintro ⟨y, m, d, hd, hs⟩
      have hp := (Parse_dateOnly_iff "2025-02-30" (Date y m d 0 0 0 0 UTC)).2 ⟨y, m, d, hd, hs, rfl⟩
      have : Parse .dateOnly "2025-02-30" = .error (.outOfRange "day") := rfl
      rw [this] at hp
      cases hp)⟩

/-! ### `validateConfig` -/

theorem Float64.not_lt_zero_iff (x : Float64) (h : x.isNaN = false) :
    Float64.lt x Float64.zero = false ↔ Float64.le Float64.zero x = true := by
  cases x with
  | nan => simp [Float64.isNaN] at h
  | inf n => cases n <;> simp [Float64.lt, Float64.le, Float64.zero]
  | finite n m e =>
    simp only [Float64.lt, Float64.le, Float64.zero, decide_eq_false_iff_not, decide_eq_true_eq,
      not_lt]
    rw [min_comm 0 e]

theorem validateFees_ok_iff (fees : List Gebuehren) :
    validateFees fees = .ok () ↔
      ∀ f ∈ fees, f.Name ≠ "" ∧ Float64.lt f.Amount Float64.zero = false := by
  induction fees with
  | nil => simp [validateFees]
  | cons f rest ih =>
    simp only [validateFees, List.mem_cons, forall_eq_or_imp]
    by_cases h1 : Float64.lt f.Amount Float64.zero = true
    · simp [h1]
    · by_cases h2 : f.Name = ""
      · simp [h1, h2]
      · simp only [h1, Bool.false_eq_true, if_false, beq_iff_eq, h2, ih, ne_eq, not_false_eq_true,
          true_and]

theorem Parse_dateOnly_empty : Parse .dateOnly "" = .error .bad := rfl

theorem Parse_RFC3339_empty : Parse .RFC3339 "" = .error .bad := rfl

theorem Parse_dateOnly_ok_iff (s : String) :
    (∃ t, Parse .dateOnly s = .ok t) ↔ IsDateString s := by
  constructor
  · rintro ⟨t, ht⟩
    obtain ⟨y, m, d, hd, hs, _⟩ := (Parse_dateOnly_iff s t).1 ht
    exact ⟨y, m, d, hd, hs⟩
  · rintro ⟨y, m, d, hd, hs⟩
    exact ⟨_, (Parse_dateOnly_iff s _).2 ⟨y, m, d, hd, hs, rfl⟩⟩

theorem validateConfig_ok (c : EventKonfiguration) :
    validateConfig c = .ok () ↔
      (2000 ≤ c.Year ∧ c.Year ≤ 2100) ∧ IsDateString c.Date ∧
      (∃ t, Parse .RFC3339 c.StartTime = .ok t) ∧
      (∀ f ∈ c.DieGebuehren, f.Name ≠ "" ∧ Float64.lt f.Amount Float64.zero = false) := by
  rw [← Parse_dateOnly_ok_iff, ← validateFees_ok_iff]
  unfold validateConfig
  by_cases hy : (c.Year < 2000 || c.Year > 2100) = true
  · have : ¬ (2000 ≤ c.Year ∧ c.Year ≤ 2100) := by
      simp only [Bool.or_eq_true, decide_eq_true_eq] at hy; omega
    simp [hy, this]
  · have hy' : 2000 ≤ c.Year ∧ c.Year ≤ 2100 := by
      simp only [Bool.or_eq_true, decide_eq_true_eq] at hy; omega
    simp only [hy, Bool.false_eq_true, if_false, hy', and_self, true_and]
    cases hd : Parse .dateOnly c.Date with
    | error e => split_ifs <;> simp
    | ok t =>
      have hne : c.Date ≠ "" := by
        intro h; rw [h, Parse_dateOnly_empty] at hd; cases hd
      cases hs : Parse .RFC3339 c.StartTime with
      | error e => split_ifs <;> simp
      | ok u =>
        have hne' : c.StartTime ≠ "" := by
          intro h; rw [h, Parse_RFC3339_empty] at hs; cases hs
        simp [hne, hne']

/-- C1: `validateConfig` returns no error exactly when the year is within
[2000, 2100], the date is a valid `YYYY-MM-DD` calendar date, the start time
parses as RFC3339 and every fee entry has a non-empty name and an amount
that is not less than zero; any other config gets an error, and a config
without fee entries that meets the first three conditions is accepted. The
test of the code is `f.Amount < 0`; for every amount other than NaN (which
decoding JSON never yields) "not less than zero" is `0 ≤ f.Amount`. -/
theorem validateConfig_accepts_iff (c : EventKonfiguration) :
    (validateConfig c = .ok () ↔
      (2000 ≤ c.Year ∧ c.Year ≤ 2100) ∧ IsDateString c.Date ∧
      (∃ t, Parse .RFC3339 c.StartTime = .ok t) ∧
      (∀ f ∈ c.DieGebuehren, f.Name ≠ "" ∧ Float64.lt f.Amount Float64.zero = false)) ∧
    (¬ ((2000 ≤ c.Year ∧ c.Year ≤ 2100) ∧ IsDateString c.Date ∧
        (∃ t, Parse .RFC3339 c.StartTime = .ok t) ∧
        (∀ f ∈ c.DieGebuehren, f.Name ≠ "" ∧ Float64.lt f.Amount Float64.zero = false)) →
      ∃ err, validateConfig c = .error err) ∧
    (c.DieGebuehren = [] → (2000 ≤ c.Year ∧ c.Year ≤ 2100) → IsDateString c.Date →
      (∃ t, Parse .RFC3339 c.StartTime = .ok t) → validateConfig c = .ok ()) ∧
    (∀ f ∈ c.DieGebuehren, f.Amount.isNaN = false →
      (Float64.lt f.Amount Float64.zero = false ↔ Float64.le Float64.zero f.Amount = true)) := by
  refine ⟨validateConfig_ok c, ?_, ?_, ?_⟩
  · intro h
    cases hv : validateConfig c with
    | error err => exact ⟨err, rfl⟩
    | ok u =>
      cases u
      exact absurd ((validateConfig_ok c).1 hv) h
  · intro hf hy hd hs
    refine (validateConfig_ok c).2 ⟨hy, hd, hs, ?_⟩
    rw [hf]
    intro f hmem
    cases hmem
  · intro f _ hnan
    exact Float64.not_lt_zero_iff f.Amount hnan

/-- C1 at the configuration the server creates on first start (accepted), at
the same with an empty date, and at the same with a fee of -5 (both rejected). -/
theorem validateConfig_accepts_iff_witness :
    validateConfig (defaultConfig "") = .ok () ∧
    (∃ err, validateConfig { defaultConfig "" with Date := "" } = .error err) ∧
    (∃ err, validateConfig
      { defaultConfig "" with DieGebuehren := [⟨"Voranmeldung", .finite true 5 0⟩] }
        = .error err) :=
  ⟨(validateConfig_accepts_iff (defaultConfig "")).1.2
      ⟨by decide, ⟨2025, 11, 1, by decide, by decide⟩, ⟨_, rfl⟩, by decide⟩,
    (validateConfig_accepts_iff { defaultConfig "" with Date := "" }).2.1
      (fun h => by
        obtain ⟨y, m, d, _, hs⟩ := h.2.1
        have hl := congrArg String.length hs
        simp [defaultConfig, isoDate] at hl),
    (validateConfig_accepts_iff
      { defaultConfig "" with DieGebuehren := [⟨"Voranmeldung", .finite true 5 0⟩] }).2.1
      (fun h => by
        have := (h.2.2.2 ⟨"Voranmeldung", .finite true 5 0⟩ (List.mem_singleton.2 rfl)).2
        revert this
        decide)⟩

/-! ### Access status -/

theorem before_or_equal_iff (t u : Time) (ht : WellFormed t) (hu : WellFormed u) :
    (t.Before u || t.Equal u) = true ↔ instant t ≤ instant u := by
  unfold WellFormed at ht hu
  simp only [Time.Before, Time.Equal, instant, Bool.or_eq_true, Bool.and_eq_true,
    decide_eq_true_eq, beq_iff_eq]
  omega

theorem after_iff (t u : Time) (ht : WellFormed t) (hu : WellFormed u) :
    t.After u = true ↔ instant u < instant t := by
  unfold WellFormed at ht hu
  simp only [Time.After, instant, Bool.or_eq_true, Bool.and_eq_true,
    decide_eq_true_eq, beq_iff_eq, gt_iff_lt]
  omega

theorem cutoffTimeForEvent_nsec (now : Time) (s : String) (c : Time)
    (h : cutoffTimeForEvent now s = .ok c) : c.nsec = 0 := by
  cases hp : Parse .dateOnly s with
  | error err => simp only [cutoffTimeForEvent, hp] at h; cases h
  | ok t =>
    obtain ⟨y, m, d, hd, rfl, _⟩ := (Parse_dateOnly_iff s t).1 hp
    rw [cutoffTimeForEvent_isoDate now y m d hd] at h
    simp only [Except.ok.injEq] at h
    rw [← h, Date_inrange _ _ _ 18 0 0 0 _ (previousDay_valid y m d hd).1 (by omega) (by omega)
      (by omega) (by omega)]

theorem Date_FixedZone_unix (y m d h mi s ns off : Int) (hm : 1 ≤ m ∧ m ≤ 12)
    (hh : 0 ≤ h ∧ h < 24) (hmi : 0 ≤ mi ∧ mi < 60) (hs : 0 ≤ s ∧ s < 60)
    (hns : 0 ≤ ns ∧ ns < 1000000000) :
    Date y m d h mi s ns (FixedZone off)
      = ⟨dayCount y m d * secondsPerDay + (h * secondsPerHour + mi * secondsPerMinute + s)
          + (absoluteToInternal + internalToUnix) - off, ns, FixedZone off⟩ := by
  rw [Date_inrange y m d h mi s ns _ hm hh hmi hs hns, zoneShift_FixedZone]

theorem accessStatus_isOpen_eq (env : Env) (reply : HttpReply (List AccessTokenRecord))
    (now nowToken : Time) (s : ServerState) (hdr : Option String) :
    (accessStatusHandler env reply now nowToken s hdr).1.body.isRegistrationOpen
      = some (match cutoffTimeForEvent now s.cfg.Date with
          | .ok cutoff => now.Before cutoff || now.Equal cutoff
          | .error _ => false) := by
  unfold accessStatusHandler
  cases h : cutoffTimeForEvent now s.cfg.Date <;>
  simp only [h, Body.isRegistrationOpen, writeJSON, Time.In, Time.Location, Time.Before,
    Time.Equal]

/-- C3: the access status reports `isRegistrationOpen = true` exactly when the
stored date parses and the current instant is at or before the cutoff, and
`false` when the date is not a valid date; with the date 2025-11-01 and any
zone of fixed offset, the local time 2025-10-31T17:59:59 gives `true`,
18:00:00 itself gives `true` and 18:00:01 gives `false`. -/
theorem accessStatus_isRegistrationOpen (env : Env) (reply : HttpReply (List AccessTokenRecord))
    (now nowToken : Time) (s : ServerState) (hdr : Option String) (hnow : WellFormed now) :
    ((accessStatusHandler env reply now nowToken s hdr).1.body.isRegistrationOpen = some true ↔
      ∃ cutoff, cutoffTimeForEvent now s.cfg.Date = .ok cutoff ∧ instant now ≤ instant cutoff) ∧
    ((∀ cutoff, ¬ (cutoffTimeForEvent now s.cfg.Date = .ok cutoff ∧
        instant now ≤ instant cutoff)) →
      (accessStatusHandler env reply now nowToken s hdr).1.body.isRegistrationOpen
        = some false) ∧
    (¬ IsDateString s.cfg.Date →
      (accessStatusHandler env reply now nowToken s hdr).1.body.isRegistrationOpen
        = some false) ∧
    (∀ off : Int, s.cfg.Date = "2025-11-01" →
      (accessStatusHandler env reply (Date 2025 10 31 17 59 59 0 (FixedZone off)) nowToken s
        hdr).1.body.isRegistrationOpen = some true ∧
      (accessStatusHandler env reply (Date 2025 10 31 18 0 0 0 (FixedZone off)) nowToken s
        hdr).1.body.isRegistrationOpen = some true ∧
      (accessStatusHandler env reply (Date 2025 10 31 18 0 1 0 (FixedZone off)) nowToken s
        hdr).1.body.isRegistrationOpen = some false) := by
  have key : ∀ b : Bool,
      (accessStatusHandler env reply now nowToken s hdr).1.body.isRegistrationOpen = some b ↔
      (b = true ↔ ∃ cutoff, cutoffTimeForEvent now s.cfg.Date = .ok cutoff ∧
        instant now ≤ instant cutoff) := by
    intro b
    rw [accessStatus_isOpen_eq]
    cases h : cutoffTimeForEvent now s.cfg.Date with
    | error err =>
      simp only [Option.some.injEq]
      cases b <;> simp
    | ok cutoff =>
      have hc : WellFormed cutoff := by
        unfold WellFormed; rw [cutoffTimeForEvent_nsec now _ cutoff h]; omega
      have hiff := before_or_equal_iff now cutoff hnow hc
      simp only [Option.some.injEq, Except.ok.injEq, exists_eq_left']
      cases b <;> cases hb : (now.Before cutoff || now.Equal cutoff) <;> simp [hb] at hiff ⊢ <;>
        omega
  refine ⟨?_, ?_, ?_, ?_⟩
  · rw [key true]; simp
  · intro h
    rw [key false]
    simp only [Bool.false_eq_true, false_iff, not_exists]
    exact h
  · intro hs
    rw [key false]
    simp only [Bool.false_eq_true, false_iff, not_exists, not_and]
    intro cutoff hc
    obtain ⟨err, he⟩ := (cutoffTimeForEvent_error now s.cfg.Date) hs
    rw [he] at hc; cases hc
  · intro off hdate
    have hcut : ∀ n : Time, n.Location = FixedZone off →
        cutoffTimeForEvent n s.cfg.Date = .ok (Date 2025 10 31 18 0 0 0 (FixedZone off)) := by
      intro n hn
      rw [hdate, ← hn]
      exact cutoffTimeForEvent_isoDate n 2025 11 1 (by decide)
    have e1 := Date_FixedZone_unix 2025 10 31 17 59 59 0 off (by omega) (by omega) (by omega)
      (by omega) (by omega)
    have e2 := Date_FixedZone_unix 2025 10 31 18 0 0 0 off (by omega) (by omega) (by omega)
      (by omega) (by omega)
    have e3 := Date_FixedZone_unix 2025 10 31 18 0 1 0 off (by omega) (by omega) (by omega)
      (by omega) (by omega)
    have n1 : dayCount 2025 10 31 * secondsPerDay
        + (17 * secondsPerHour + 59 * secondsPerMinute + 59)
        + (absoluteToInternal + internalToUnix) = 1761933599 := by decide
    have n2 : dayCount 2025 10 31 * secondsPerDay
        + (18 * secondsPerHour + 0 * secondsPerMinute + 0)
        + (absoluteToInternal + internalToUnix) = 1761933600 := by decide
    have n3 : dayCount 2025 10 31 * secondsPerDay
        + (18 * secondsPerHour + 0 * secondsPerMinute + 1)
        + (absoluteToInternal + internalToUnix) = 1761933601 := by decide
    rw [n1] at e1; rw [n2] at e2; rw [n3] at e3
    refine ⟨?_, ?_, ?_⟩
    · rw [accessStatus_isOpen_eq, hcut _ (by rw [e1]; rfl), e1, e2]
      simp [Time.Before, Time.Equal]
    · rw [accessStatus_isOpen_eq, hcut _ (by rw [e2]; rfl), e2]
      simp [Time.Before, Time.Equal]
    · rw [accessStatus_isOpen_eq, hcut _ (by rw [e3]; rfl), e3, e2]
      simp [Time.Before, Time.Equal]

/-- C3 on the initial state (event date 2025-11-01) in the zone one hour east
of UTC: open one second before the cutoff, closed one second after it. -/
theorem accessStatus_isRegistrationOpen_witness :
    (accessStatusHandler envLocal (.transportError "")
      (Date 2025 10 31 17 59 59 0 (FixedZone 3600)) ⟨1761930000, 0, FixedZone 3600⟩
      initialState none).1.body.isRegistrationOpen = some true ∧
    (accessStatusHandler envLocal (.transportError "")
      (Date 2025 10 31 18 0 1 0 (FixedZone 3600)) ⟨1761930000, 0, FixedZone 3600⟩
      initialState none).1.body.isRegistrationOpen = some false :=
  ⟨((accessStatus_isRegistrationOpen envLocal (.transportError "")
      ⟨1761930000, 0, FixedZone 3600⟩ ⟨1761930000, 0, FixedZone 3600⟩ initialState none
      (by decide)).2.2.2 3600 rfl).1,
    ((accessStatus_isRegistrationOpen envLocal (.transportError "")
      ⟨1761930000, 0, FixedZone 3600⟩ ⟨1761930000, 0, FixedZone 3600⟩ initialState none
      (by decide)).2.2.2 3600 rfl).2.2⟩

/-! ### Token store -/

theorem TokenStore.get_set_self (m : TokenStore) (k : String) (v : Time) :
    (m.set k v).get k = some v := by
  simp [TokenStore.set, TokenStore.get, List.lookup]

theorem TokenStore.get_delete_self (m : TokenStore) (k : String) :
    (m.delete k).get k = none := by
  induction m with
  | nil => rfl
  | cons e rest ih =>
    obtain ⟨k', v⟩ := e
    simp only [TokenStore.delete, TokenStore.get] at ih ⊢
    by_cases h : k' = k
    · subst h
      simp only [List.filter_cons, bne_self_eq_false, Bool.false_eq_true, if_false]
      exact ih
    · have h' : (k == k') = false := by simp [Ne.symm h]
      have hb : (k' != k) = true := by simp [h]
      simp only [List.filter_cons, hb, if_true, List.lookup, h']
      exact ih

theorem TokenStore.get_delete_other (m : TokenStore) (k k' : String) (h : k' ≠ k) :
    (m.delete k).get k' = m.get k' := by
  induction m with
  | nil => rfl
  | cons e rest ih =>
    obtain ⟨k₀, v⟩ := e
    simp only [TokenStore.delete, TokenStore.get] at ih ⊢
    by_cases h0 : k₀ = k
    · subst h0
      have h' : (k' == k₀) = false := by simp [h]
      simp only [List.filter_cons, bne_self_eq_false, Bool.false_eq_true, if_false, List.lookup,
        h']
      exact ih
    · have hb : (k₀ != k) = true := by simp [h0]
      simp only [List.filter_cons, hb, if_true, List.lookup]
      cases hk : k' == k₀
      · exact ih
      · rfl

theorem TokenStore.get_eq_none (m : TokenStore) (k : String) (h : ∀ e ∈ m, e.1 ≠ k) :
    m.get k = none := by
  induction m with
  | nil => rfl
  | cons e rest ih =>
    obtain ⟨k', v⟩ := e
    have h1 : k' ≠ k := h (k', v) (List.mem_cons_self _ _)
    have h' : (k == k') = false := by simp [Ne.symm h1]
    simp only [TokenStore.get, List.lookup, h'] at ih ⊢
    exact ih (fun e he => h e (List.mem_cons_of_mem _ he))

theorem TokenStore.not_mem_delete (m : TokenStore) (k : String) :
    ∀ e ∈ m.delete k, e.1 ≠ k := by
  intro e he
  simp only [TokenStore.delete, List.mem_filter, bne_iff_ne, ne_eq] at he
  exact he.2

theorem validateAccessToken_local (env : Env) (reply : HttpReply (List AccessTokenRecord))
    (now : Time) (store : TokenStore) (tkn : String) (hlocal : parseEnabled env = false) :
    validateAccessToken env reply now store tkn =
      match store.get tkn with
      | none => (false, store)
      | some exp => if now.UTC.After exp then (false, store.delete tkn) else (true, store) := by
  simp only [validateAccessToken, hlocal, Bool.false_eq_true, if_false]

theorem WellFormed_UTC (t : Time) (h : WellFormed t) : WellFormed t.UTC := h

theorem instant_UTC (t : Time) : instant t.UTC = instant t := rfl

theorem Add_twelveHours (t : Time) (h : WellFormed t) :
    WellFormed (t.Add twelveHours) ∧
      instant (t.Add twelveHours) = instant t + 12 * 3600 * 1000000000 := by
  unfold WellFormed at h
  have e1 : Int.tdiv twelveHours 1000000000 = 43200 := by decide
  have e2 : Int.tmod twelveHours 1000000000 = 0 := by decide
  have h1 : ¬ t.nsec + 0 ≥ 1000000000 := by omega
  have h2 : ¬ t.nsec + 0 < 0 := by omega
  simp only [Time.Add, e1, e2, h1, h2, if_false, WellFormed, instant]
  omega

theorem authHandler_local_ok (env : Env) (w : AuthWorld) (store : TokenStore) (r : AuthRequest)
    (hlocal : parseEnabled env = false)
    (hok : (authHandler env w store r).1.status = StatusOK) :
    ∃ token, authHandler env w store r
      = (writeJSON (.token token (w.now.UTC.Add twelveHours).Format),
          store.set token (w.now.UTC.Add twelveHours)) := by
  unfold authHandler at hok ⊢
  simp only [hlocal, Bool.false_eq_true, if_false] at hok ⊢
  by_cases hm : (r.method != "POST") = true
  · simp [hm, httpError, StatusMethodNotAllowed, StatusOK] at hok
  · simp only [hm, if_false] at hok ⊢
    cases hb : r.body with
    | error err => simp [hb, httpError, StatusBadRequest, StatusOK] at hok
    | ok password =>
      simp only [hb] at hok ⊢
      by_cases hpw : (password != getEnv env "REGISTRATION_PASSWORD" "secret-password") = true
      · simp [hpw, httpError, StatusUnauthorized, StatusOK] at hok
      · simp only [hpw, if_false] at hok ⊢
        cases hr : w.randomToken with
        | error err => simp [hr, httpError, StatusInternalServerError, StatusOK] at hok
        | ok token => exact ⟨token, rfl⟩

/-- C4: on the local backend, a successful authentication at `w.now` stores
the issued token with expiry `w.now` plus twelve hours, and validating that
token at any instant up to the expiry returns `true` and leaves the store as
it is; validating a token that is not a key of the store returns `false`
and leaves the store as it is. -/
theorem local_issue_then_validate (env : Env) (hlocal : parseEnabled env = false) :
    (∀ (w : AuthWorld) (store : TokenStore) (r : AuthRequest), WellFormed w.now →
      (authHandler env w store r).1.status = StatusOK →
      ∃ token exp, (authHandler env w store r).2 = store.set token exp ∧
        (authHandler env w store r).1.body = .token token exp.Format ∧
        (authHandler env w store r).2.get token = some exp ∧
        instant exp = instant w.now + 12 * 3600 * 1000000000 ∧
        ∀ (reply : HttpReply (List AccessTokenRecord)) (t : Time), WellFormed t →
          instant t ≤ instant w.now + 12 * 3600 * 1000000000 →
          validateAccessToken env reply t (authHandler env w store r).2 token
            = (true, (authHandler env w store r).2)) ∧
    (∀ (reply : HttpReply (List AccessTokenRecord)) (t : Time) (store : TokenStore)
      (tkn : String), (∀ e ∈ store, e.1 ≠ tkn) →
      validateAccessToken env reply t store tkn = (false, store)) := by
  constructor
  · intro w store r hnow hok
    have hadd := Add_twelveHours w.now.UTC (WellFormed_UTC _ hnow)
    obtain ⟨token, heq⟩ := authHandler_local_ok env w store r hlocal hok
    rw [heq]
    refine ⟨token, w.now.UTC.Add twelveHours, rfl, rfl, TokenStore.get_set_self _ _ _, ?_, ?_⟩
    · rw [hadd.2, instant_UTC]
    · intro reply t ht hle
      show validateAccessToken env reply t (store.set token (w.now.UTC.Add twelveHours)) token
        = (true, store.set token (w.now.UTC.Add twelveHours))
      rw [validateAccessToken_local env reply t _ token hlocal, TokenStore.get_set_self]
      have hna : ¬ (t.UTC.After (w.now.UTC.Add twelveHours) = true) := by
        rw [after_iff _ _ (WellFormed_UTC _ ht) hadd.1, hadd.2, instant_UTC, instant_UTC]
        omega
      simp only [hna, Bool.false_eq_true, if_false]
  · intro reply t store tkn hkey
    rw [validateAccessToken_local env reply t store tkn hlocal,
      TokenStore.get_eq_none store tkn hkey]

/-- C4 on an empty store: the default password issues `tok-1`, valid up to twelve
hours later; the token `tok-2` is unknown. -/
theorem local_issue_then_validate_witness :
    (∃ token exp, (authHandler envLocal worldLocal [] loginRequest).2
        = TokenStore.set [] token exp ∧
      (authHandler envLocal worldLocal [] loginRequest).1.body = .token token exp.Format ∧
      (authHandler envLocal worldLocal [] loginRequest).2.get token = some exp ∧
      instant exp = instant worldLocal.now + 12 * 3600 * 1000000000 ∧
      ∀ (reply : HttpReply (List AccessTokenRecord)) (t : Time), WellFormed t →
        instant t ≤ instant worldLocal.now + 12 * 3600 * 1000000000 →
        validateAccessToken envLocal reply t (authHandler envLocal worldLocal [] loginRequest).2
          token = (true, (authHandler envLocal worldLocal [] loginRequest).2)) ∧
    validateAccessToken envLocal (.transportError "") worldLocal.now
      [("tok-1", worldLocal.now)] "tok-2" = (false, [("tok-1", worldLocal.now)]) :=
  ⟨(local_issue_then_validate envLocal (by decide)).1 worldLocal [] loginRequest (by decide)
      (by decide),
    (local_issue_then_validate envLocal (by decide)).2 (.transportError "") worldLocal.now
      [("tok-1", worldLocal.now)] "tok-2" (by
        intro e he
        rw [List.mem_singleton] at he
        rw [he]
        decide)⟩

/-- C5: on the local backend, validating a token whose stored expiry lies
strictly before the current instant returns `false` and removes the token
from the store, every other key keeps its entry, and validating the token
again (at any time) returns `false` too. -/
theorem local_expired_token_pruned (env : Env) (reply reply' : HttpReply (List AccessTokenRecord))
    (now now' exp : Time) (store : TokenStore) (tkn : String)
    (hlocal : parseEnabled env = false) (hnow : WellFormed now) (hexp : WellFormed exp)
    (hget : store.get tkn = some exp) (hpast : instant exp < instant now) :
    (validateAccessToken env reply now store tkn).1 = false ∧
    (validateAccessToken env reply now store tkn).2.get tkn = none ∧
    (∀ e ∈ (validateAccessToken env reply now store tkn).2, e.1 ≠ tkn) ∧
    (∀ k, k ≠ tkn → (validateAccessToken env reply now store tkn).2.get k = store.get k) ∧
    (∀ e, e.1 ≠ tkn → (e ∈ (validateAccessToken env reply now store tkn).2 ↔ e ∈ store)) ∧
    validateAccessToken env reply' now' (validateAccessToken env reply now store tkn).2 tkn
      = (false, (validateAccessToken env reply now store tkn).2) := by
  have hafter : now.UTC.After exp = true := by
    rw [after_iff _ _ (WellFormed_UTC _ hnow) hexp, instant_UTC]; exact hpast
  have h1 : validateAccessToken env reply now store tkn = (false, store.delete tkn) := by
    rw [validateAccessToken_local env reply now store tkn hlocal, hget]
    simp only [hafter, if_true]
  rw [h1]
  refine ⟨rfl, TokenStore.get_delete_self _ _, TokenStore.not_mem_delete _ _,
    fun k hk => TokenStore.get_delete_other _ _ _ hk, ?_, ?_⟩
  · intro e he
    simp only [TokenStore.delete, List.mem_filter, bne_iff_ne, ne_eq, he, not_false_eq_true,
      and_true]
  · show validateAccessToken env reply' now' (store.delete tkn) tkn = (false, store.delete tkn)
    rw [validateAccessToken_local env reply' now' _ tkn hlocal, TokenStore.get_delete_self]

/-- C5 on a store of two tokens, `tok-1` expired one second ago. -/
theorem local_expired_token_pruned_witness :
    (validateAccessToken envLocal (.transportError "") ⟨1761933601, 0, UTC⟩
      [("tok-1", ⟨1761933600, 0, UTC⟩), ("tok-2", ⟨1761940000, 0, UTC⟩)] "tok-1").1 = false ∧
    (validateAccessToken envLocal (.transportError "") ⟨1761933601, 0, UTC⟩
      [("tok-1", ⟨1761933600, 0, UTC⟩), ("tok-2", ⟨1761940000, 0, UTC⟩)] "tok-1").2
      = [("tok-2", ⟨1761940000, 0, UTC⟩)] :=
  ⟨(local_expired_token_pruned envLocal (.transportError "") (.transportError "")
      ⟨1761933601, 0, UTC⟩ ⟨1761933601, 0, UTC⟩ ⟨1761933600, 0, UTC⟩
      [("tok-1", ⟨1761933600, 0, UTC⟩), ("tok-2", ⟨1761940000, 0, UTC⟩)] "tok-1"
      (by decide) (by decide) (by decide) rfl (by decide)).1, rfl⟩

/-! ### `PUT /api/config` -/

theorem getEnv_ne_empty (env : Env) (key fallback : String) (h : fallback ≠ "") :
    getEnv env key fallback ≠ "" := by
  unfold getEnv
  by_cases hv : (env key == "") = true
  · simp only [hv, if_true]; exact h
  · simp only [hv, if_false, Bool.false_eq_true]
    simpa using hv

theorem adminToken_ne_empty (env : Env) : adminToken env ≠ "" :=
  getEnv_ne_empty env _ _ (by decide)

theorem validateFees_negative (fees : List Gebuehren)
    (h : ∃ f ∈ fees, Float64.lt f.Amount Float64.zero = true) :
    ∃ err, validateFees fees = .error err := by
  cases hv : validateFees fees with
  | error err => exact ⟨err, rfl⟩
  | ok u =>
    cases u
    obtain ⟨f, hf, hneg⟩ := h
    have := ((validateFees_ok_iff fees).1 hv f hf).2
    rw [hneg] at this
    cases this

theorem validateConfig_negative (c : EventKonfiguration)
    (h : ∃ f ∈ c.DieGebuehren, Float64.lt f.Amount Float64.zero = true) :
    ∃ err, validateConfig c = .error err := by
  cases hv : validateConfig c with
  | error err => exact ⟨err, rfl⟩
  | ok u =>
    cases u
    obtain ⟨f, hf, hneg⟩ := h
    have := (((validateConfig_ok c).1 hv).2.2.2 f hf).2
    rw [hneg] at this
    cases this

theorem handlePutConfig_authorized (env : Env) (now : Time) (write : WriteOutcome)
    (s : ServerState) (r : PutRequest) (hauth : r.adminHeader = some (adminToken env)) :
    handlePutConfig env now write s r =
      match r.body with
      | .error err => (httpError ("invalid json: " ++ err) StatusBadRequest, s)
      | .ok updated =>
        match validateConfig updated with
        | .error err => (⟨StatusBadRequest, .validationFailed err⟩, s)
        | .ok _ =>
          match saveConfigToFile write s.configFile
              { updated with UpdatedAt := now.UTC.Format } with
          | (some err, file) =>
            (httpError ("failed to persist config: " ++ err) StatusInternalServerError,
              { s with cfg := { updated with UpdatedAt := now.UTC.Format }, configFile := file })
          | (none, file) =>
            (writeJSON (.config { updated with UpdatedAt := now.UTC.Format }),
              { s with cfg := { updated with UpdatedAt := now.UTC.Format }, configFile := file })
      := by
  unfold handlePutConfig
  simp only [hauth, headerGet, Option.getD_some, bne_self_eq_false, Bool.false_eq_true, if_false]

/-- C6: a PUT with the right admin token whose body decodes and holds a fee
entry with a negative amount is answered 400, and the server state (the
configuration in memory, the file, the token store) is what it was. -/
theorem put_negative_fee_rejected (env : Env) (now : Time) (write : WriteOutcome)
    (s : ServerState) (r : PutRequest) (updated : EventKonfiguration)
    (hauth : r.adminHeader = some (adminToken env)) (hbody : r.body = .ok updated)
    (hneg : ∃ f ∈ updated.DieGebuehren, Float64.lt f.Amount Float64.zero = true) :
    (handlePutConfig env now write s r).1.status = StatusBadRequest ∧
    (handlePutConfig env now write s r).2 = s ∧
    (handlePutConfig env now write s r).2.cfg = s.cfg ∧
    (handlePutConfig env now write s r).2.configFile = s.configFile := by
  obtain ⟨err, herr⟩ := validateConfig_negative updated hneg
  rw [handlePutConfig_authorized env now write s r hauth, hbody]
  simp only [herr, and_self]

/-- C6 at the default configuration with its first fee set to -5, sent to the
initial state with the default admin token. -/
theorem put_negative_fee_rejected_witness :
    (handlePutConfig envLocal ⟨1761933600, 0, UTC⟩ .ok initialState
      ⟨some "my-secret-admin-token",
        .ok { defaultConfig "" with
          DieGebuehren := [⟨"Voranmeldung", .finite true 5 0⟩, ⟨"Nachmeldung", .finite false 18 0⟩] }⟩
      ).1.status = 400 ∧
    (handlePutConfig envLocal ⟨1761933600, 0, UTC⟩ .ok initialState
      ⟨some "my-secret-admin-token",
        .ok { defaultConfig "" with
          DieGebuehren := [⟨"Voranmeldung", .finite true 5 0⟩, ⟨"Nachmeldung", .finite false 18 0⟩] }⟩
      ).2 = initialState :=
  ⟨(put_negative_fee_rejected envLocal ⟨1761933600, 0, UTC⟩ .ok initialState _ _ rfl rfl
      ⟨⟨"Voranmeldung", .finite true 5 0⟩, List.mem_cons_self _ _, by decide⟩).1,
    (put_negative_fee_rejected envLocal ⟨1761933600, 0, UTC⟩ .ok initialState _ _ rfl rfl
      ⟨⟨"Voranmeldung", .finite true 5 0⟩, List.mem_cons_self _ _, by decide⟩).2.1⟩

/-- C7: a PUT whose `X-Admin-Token` header is absent or differs from the admin
token is answered 401 `unauthorized`, whatever its body, and the server
state is what it was. -/
theorem put_unauthorized (env : Env) (now : Time) (write : WriteOutcome)
    (s : ServerState) (r : PutRequest)
    (h : r.adminHeader = none ∨ ∃ v, r.adminHeader = some v ∧ v ≠ adminToken env) :
    (handlePutConfig env now write s r).1.status = StatusUnauthorized ∧
    (handlePutConfig env now write s r).1.body = .text "unauthorized" ∧
    (handlePutConfig env now write s r).2 = s ∧
    (handlePutConfig env now write s r).2.cfg = s.cfg := by
  have hne : (headerGet r.adminHeader != adminToken env) = true := by
    rcases h with h | ⟨v, hv, hne⟩
    · rw [h]
      simp only [headerGet, Option.getD_none, bne_iff_ne, ne_eq]
      exact fun e => adminToken_ne_empty env e.symm
    · rw [hv]
      simpa [headerGet] using hne
  unfold handlePutConfig
  simp only [hne, if_true, httpError, and_self]

/-- C7 on the initial state: no header with a valid body, and a wrong token
with a body that does not decode. -/
theorem put_unauthorized_witness :
    ((handlePutConfig envLocal ⟨1761933600, 0, UTC⟩ .ok initialState
        ⟨none, .ok (defaultConfig "")⟩).1.status = 401 ∧
      (handlePutConfig envLocal ⟨1761933600, 0, UTC⟩ .ok initialState
        ⟨none, .ok (defaultConfig "")⟩).2 = initialState) ∧
    ((handlePutConfig envLocal ⟨1761933600, 0, UTC⟩ .ok initialState
        ⟨some "guess", .error "unexpected EOF"⟩).1.status = 401 ∧
      (handlePutConfig envLocal ⟨1761933600, 0, UTC⟩ .ok initialState
        ⟨some "guess", .error "unexpected EOF"⟩).2 = initialState) :=
  ⟨⟨(put_unauthorized envLocal ⟨1761933600, 0, UTC⟩ .ok initialState
        ⟨none, .ok (defaultConfig "")⟩ (Or.inl rfl)).1,
      (put_unauthorized envLocal ⟨1761933600, 0, UTC⟩ .ok initialState
        ⟨none, .ok (defaultConfig "")⟩ (Or.inl rfl)).2.2.1⟩,
    ⟨(put_unauthorized envLocal ⟨1761933600, 0, UTC⟩ .ok initialState
        ⟨some "guess", .error "unexpected EOF"⟩ (Or.inr ⟨"guess", rfl, by decide⟩)).1,
      (put_unauthorized envLocal ⟨1761933600, 0, UTC⟩ .ok initialState
        ⟨some "guess", .error "unexpected EOF"⟩ (Or.inr ⟨"guess", rfl, by decide⟩)).2.2.1⟩⟩

/-- C10: after a PUT with the right admin token whose body decodes and passes
`validateConfig`, the configuration in memory is the submitted record with
`UpdatedAt` replaced by the current time formatted in UTC (year, date, start
time and the fee list are the submitted ones), whatever becomes of the write:
when the write fails the answer is 500 and the configuration in memory is the
new one all the same; when it succeeds the answer is 200 with that record,
which is also the content of the file. -/
theorem put_valid_replaces_cfg (env : Env) (now : Time) (write : WriteOutcome)
    (s : ServerState) (r : PutRequest) (updated : EventKonfiguration)
    (hauth : r.adminHeader = some (adminToken env)) (hbody : r.body = .ok updated)
    (hvalid : validateConfig updated = .ok ()) :
    (handlePutConfig env now write s r).2.cfg = { updated with UpdatedAt := now.UTC.Format } ∧
    ((handlePutConfig env now write s r).2.cfg.Year = updated.Year ∧
      (handlePutConfig env now write s r).2.cfg.Date = updated.Date ∧
      (handlePutConfig env now write s r).2.cfg.StartTime = updated.StartTime ∧
      (handlePutConfig env now write s r).2.cfg.DieGebuehren = updated.DieGebuehren ∧
      (handlePutConfig env now write s r).2.cfg.UpdatedAt = now.UTC.Format) ∧
    (∀ err left, write = .failed err left →
      (handlePutConfig env now write s r).1.status = StatusInternalServerError ∧
      (handlePutConfig env now write s r).2.cfg
        = { updated with UpdatedAt := now.UTC.Format }) ∧
    (write = .ok → marshalFails updated = false →
      (handlePutConfig env now write s r).1.status = StatusOK ∧
      (handlePutConfig env now write s r).1.body
        = .config { updated with UpdatedAt := now.UTC.Format } ∧
      (handlePutConfig env now write s r).2.configFile
        = some { updated with UpdatedAt := now.UTC.Format }) := by
  rw [handlePutConfig_authorized env now write s r hauth, hbody]
  simp only [hvalid]
  have hcfg : (match saveConfigToFile write s.configFile
        { updated with UpdatedAt := now.UTC.Format } with
      | (some err, file) =>
        (httpError ("failed to persist config: " ++ err) StatusInternalServerError,
          { s with cfg := { updated with UpdatedAt := now.UTC.Format }, configFile := file })
      | (none, file) =>
        (writeJSON (.config { updated with UpdatedAt := now.UTC.Format }),
          { s with cfg := { updated with UpdatedAt := now.UTC.Format },
                   configFile := file })).2.cfg
      = { updated with UpdatedAt := now.UTC.Format } := by
    cases saveConfigToFile write s.configFile { updated with UpdatedAt := now.UTC.Format } with
    | mk e file => cases e <;> rfl
  refine ⟨hcfg, ?_, ?_, ?_⟩
  · rw [hcfg]; exact ⟨rfl, rfl, rfl, rfl, rfl⟩
  · intro err left hw
    refine ⟨?_, hcfg⟩
    subst hw
    unfold saveConfigToFile
    by_cases hm : marshalFails { updated with UpdatedAt := now.UTC.Format } = true
    · simp only [hm, if_true, httpError]
    · simp only [hm, if_false, httpError, Bool.false_eq_true]
  · intro hw hm
    subst hw
    have hm' : marshalFails { updated with UpdatedAt := now.UTC.Format } = false := hm
    simp only [saveConfigToFile, hm', Bool.false_eq_true, if_false, writeJSON, and_self]

/-- C10 at the default configuration sent with a stale `updatedAt`, at
2025-10-31T18:00:00Z: once with a failing write, once with a good one. -/
theorem put_valid_replaces_cfg_witness :
    ((handlePutConfig envLocal ⟨1761933600, 0, FixedZone 3600⟩ (.failed "disk full" none)
        initialState ⟨some "my-secret-admin-token", .ok (defaultConfig "stale")⟩).1.status = 500 ∧
      (handlePutConfig envLocal ⟨1761933600, 0, FixedZone 3600⟩ (.failed "disk full" none)
        initialState ⟨some "my-secret-admin-token", .ok (defaultConfig "stale")⟩).2.cfg
        = defaultConfig "2025-10-31T18:00:00Z") ∧
    (handlePutConfig envLocal ⟨1761933600, 0, FixedZone 3600⟩ .ok
        initialState ⟨some "my-secret-admin-token", .ok (defaultConfig "stale")⟩).2.cfg
        = defaultConfig "2025-10-31T18:00:00Z" :=
  ⟨(put_valid_replaces_cfg envLocal ⟨1761933600, 0, FixedZone 3600⟩ (.failed "disk full" none)
      initialState ⟨some "my-secret-admin-token", .ok (defaultConfig "stale")⟩
      (defaultConfig "stale") rfl rfl rfl).2.2.1 "disk full" none rfl,
    (put_valid_replaces_cfg envLocal ⟨1761933600, 0, FixedZone 3600⟩ .ok
      initialState ⟨some "my-secret-admin-token", .ok (defaultConfig "stale")⟩
      (defaultConfig "stale") rfl rfl rfl).1⟩

/-! ### Remote validation -/

theorem digitsVal_foldl (l : List Char) (acc : Int) (hl : ∀ c ∈ l, c.isDigit = true) :
    acc * 10 ^ l.length ≤ l.foldl (fun a c => a * 10 + digitVal c) acc ∧
      l.foldl (fun a c => a * 10 + digitVal c) acc < (acc + 1) * 10 ^ l.length := by
  induction l generalizing acc with
  | nil => simp
  | cons c rest ih =>
    have hc := digitVal_range c (hl c (List.mem_cons_self _ _))
    have ih' := ih (acc * 10 + digitVal c) (fun x hx => hl x (List.mem_cons_of_mem _ hx))
    simp only [List.foldl_cons, List.length_cons, pow_succ]
    have hp : (0 : Int) < 10 ^ rest.length := by positivity
    constructor
    · calc acc * (10 ^ rest.length * 10) = (acc * 10) * 10 ^ rest.length := by ring
        _ ≤ (acc * 10 + digitVal c) * 10 ^ rest.length := by
          apply Int.mul_le_mul_of_nonneg_right _ (le_of_lt hp); omega
        _ ≤ _ := ih'.1
    · calc _ < (acc * 10 + digitVal c + 1) * 10 ^ rest.length := ih'.2
        _ ≤ ((acc + 1) * 10) * 10 ^ rest.length := by
          apply Int.mul_le_mul_of_nonneg_right _ (le_of_lt hp); omega
        _ = (acc + 1) * (10 ^ rest.length * 10) := by ring

theorem parseNanoseconds_range (ds : List Char) (hl : ∀ c ∈ ds, c.isDigit = true) :
    0 ≤ parseNanoseconds ds ∧ parseNanoseconds ds < 1000000000 := by
  simp only [parseNanoseconds, digitsVal]
  have hused : ∀ c ∈ ds.take 9, c.isDigit = true := fun c hc => hl c (List.mem_of_mem_take hc)
  have hlen : (ds.take 9).length ≤ 9 := by simp
  have hb := digitsVal_foldl (ds.take 9) 0 hused
  simp only [zero_mul, zero_add, one_mul] at hb
  generalize (ds.take 9).foldl (fun a c => a * 10 + digitVal c) 0 = v at hb
  generalize (ds.take 9).length = n at hb hlen
  have hp : (0 : Int) < 10 ^ (9 - n) := by positivity
  have he : (10 : Int) ^ n * 10 ^ (9 - n) = 1000000000 := by
    rw [← pow_add]
    have : n + (9 - n) = 9 := by omega
    rw [this]; norm_num
  constructor
  · exact Int.mul_nonneg hb.1 (le_of_lt hp)
  · calc v * 10 ^ (9 - n) < 10 ^ n * 10 ^ (9 - n) := Int.mul_lt_mul_of_pos_right hb.2 hp
      _ = 1000000000 := he

theorem fraction_range (v : List Char) : 0 ≤ (fraction v).1 ∧ (fraction v).1 < 1000000000 := by
  match v with
  | [] => simp [fraction]
  | [_] => simp [fraction]
  | c0 :: c1 :: rest =>
    simp only [fraction]
    split
    · exact parseNanoseconds_range _ (fun c hc => (List.mem_takeWhile_imp hc))
    · simp

theorem getnum_range (v rest : List Char) (fixed : Bool) (n : Int)
    (h : getnum v fixed = .ok (n, rest)) : 0 ≤ n ∧ n ≤ 99 := by
  match v, h with
  | [], h => simp [getnum] at h
  | [c0], h =>
    simp only [getnum] at h
    split at h
    · cases h
    · rename_i h0
      split at h
      · cases h
      · simp only [Except.ok.injEq, Prod.mk.injEq] at h
        have := digitVal_range c0 (by simpa using h0)
        omega
  | c0 :: c1 :: r, h =>
    simp only [getnum] at h
    split at h
    · cases h
    · rename_i h0
      have r0 := digitVal_range c0 (by simpa using h0)
      split at h
      · split at h
        · cases h
        · simp only [Except.ok.injEq, Prod.mk.injEq] at h
          omega
      · rename_i h1
        have r1 := digitVal_range c1 (by simpa using h1)
        simp only [Except.ok.injEq, Prod.mk.injEq] at h
        omega

theorem getClock_ok (v rest : List Char) (h mi s ns : Int)
    (hg : getClock v = .ok (h, mi, s, ns, rest)) :
    (0 ≤ h ∧ h < 24) ∧ (0 ≤ mi ∧ mi < 60) ∧ (0 ≤ s ∧ s < 60) ∧ (0 ≤ ns ∧ ns < 1000000000) := by
  unfold getClock at hg
  split at hg
  · cases hg
  · split at hg
    · cases hg
    · rename_i hh
      split at hg
      · cases hg
      · split at hg
        · cases hg
        · split at hg
          · cases hg
          · rename_i hmi
            split at hg
            · cases hg
            · split at hg
              · cases hg
              · split at hg
                · cases hg
                · rename_i hs
                  simp only [Except.ok.injEq, Prod.mk.injEq] at hg
                  obtain ⟨rfl, rfl, rfl, hns, _⟩ := hg
                  subst hns
                  exact ⟨by omega, by omega, by omega, fraction_range _⟩

theorem Parse_RFC3339_wellFormed (s : String) (t : Time) (h : Parse .RFC3339 s = .ok t) :
    WellFormed t := by
  simp only [Parse, parseRFC3339] at h
  split at h
  · cases h
  · rename_i y m d v1 hd
    obtain ⟨_, hm, _, _⟩ := getDate_ok _ _ _ _ _ hd
    split at h
    · cases h
    · split at h
      · cases h
      · rename_i hh mi sec ns v3 hc
        obtain ⟨r1, r2, r3, r4⟩ := getClock_ok _ _ _ _ _ _ hc
        split at h
        · cases h
        · split at h
          · cases h
          · split at h
            · cases h
            · simp only [Except.ok.injEq] at h
              rw [← h, Date_inrange y m d hh mi sec ns UTC hm r1 r2 r3 r4]
              exact r4

theorem anyUnexpired_iff (now : Time) (rs : List AccessTokenRecord) :
    anyUnexpired now rs = true ↔
      ∃ r ∈ rs, ∃ t, Parse .RFC3339 r.ExpiresAt.iso = .ok t ∧
        (now.Before t || now.Equal t) = true := by
  induction rs with
  | nil => simp [anyUnexpired]
  | cons r rest ih =>
    simp only [anyUnexpired, List.mem_cons, exists_eq_or_imp]
    by_cases he : (r.ExpiresAt.iso == "") = true
    · have he' : r.ExpiresAt.iso = "" := by simpa using he
      rw [if_pos he, ih, he', Parse_RFC3339_empty]
      constructor
      · intro h; exact Or.inr h
      · rintro (⟨t, ht, _⟩ | h)
        · cases ht
        · exact h
    · rw [if_neg he]
      cases hp : Parse .RFC3339 r.ExpiresAt.iso with
      | error err =>
        simp only [ih]
        constructor
        · intro h; exact Or.inr h
        · rintro (⟨t, ht, _⟩ | h)
          · cases ht
          · exact h
      | ok t =>
        by_cases hb : (now.Before t || now.Equal t) = true
        · simp only [hb, if_true, true_iff]
          exact Or.inl ⟨t, rfl, hb⟩
        · simp only [hb, Bool.false_eq_true, if_false, ih]
          constructor
          · intro h; exact Or.inr h
          · rintro (⟨t', ht', hb'⟩ | h)
            · simp only [Except.ok.injEq] at ht'
              subst ht'
              exact absurd hb' hb
            · exact h

/-- C8: given the remote store's reply and the current time,
`validateAccessTokenParse` returns `true` exactly when the reply is a response
with status 200 whose body decoded and one of whose records has an expiry
that parses as RFC3339 and is at or after the current instant; for a request
or transport error, a status other than 200, or a body that does not decode,
it returns `false`. The result is a Boolean in every case: no error reaches
the caller. -/
theorem validateAccessTokenParse_iff (reply : HttpReply (List AccessTokenRecord)) (now : Time)
    (hnow : WellFormed now) :
    (validateAccessTokenParse reply now = true ↔
      ∃ results, reply = .response StatusOK (.ok results) ∧
        ∃ r ∈ results, ∃ t, Parse .RFC3339 r.ExpiresAt.iso = .ok t ∧ instant now ≤ instant t) ∧
    (∀ err, reply = .requestError err ∨ reply = .transportError err →
      validateAccessTokenParse reply now = false) ∧
    (∀ status body, reply = .response status body → status ≠ StatusOK →
      validateAccessTokenParse reply now = false) ∧
    (∀ status err, reply = .response status (.error err) →
      validateAccessTokenParse reply now = false) := by
  refine ⟨?_, ?_, ?_, ?_⟩
  · cases reply with
    | requestError err => simp [validateAccessTokenParse]
    | transportError err => simp [validateAccessTokenParse]
    | response status body =>
      by_cases hs : status = StatusOK
      · subst hs
        cases body with
        | error err => simp [validateAccessTokenParse]
        | ok results =>
          simp only [validateAccessTokenParse, bne_self_eq_false, Bool.false_eq_true, if_false,
            anyUnexpired_iff, HttpReply.response.injEq, Except.ok.injEq, true_and,
            exists_eq_left']
          constructor
          · rintro ⟨r, hr, t, hp, hle⟩
            exact ⟨r, hr, t, hp, (before_or_equal_iff now.UTC t (WellFormed_UTC _ hnow)
              (Parse_RFC3339_wellFormed _ _ hp)).1 hle⟩
          · rintro ⟨r, hr, t, hp, hle⟩
            exact ⟨r, hr, t, hp, (before_or_equal_iff now.UTC t (WellFormed_UTC _ hnow)
              (Parse_RFC3339_wellFormed _ _ hp)).2 hle⟩
      · have hs' : (status != StatusOK) = true := by simpa using hs
        simp [validateAccessTokenParse, hs', hs]
  · rintro err (h | h) <;> rw [h] <;> rfl
  · intro status body h hs
    have hs' : (status != StatusOK) = true := by simpa using hs
    rw [h]
    simp only [validateAccessTokenParse, hs', if_true]
  · intro status err h
    rw [h]
    simp only [validateAccessTokenParse]
    split <;> rfl

/-- C8 at 2025-10-31T18:00:00Z: a record expiring at 20:00 local time (+01:00)
validates, a failed round trip does not. -/
theorem validateAccessTokenParse_iff_witness :
    validateAccessTokenParse
      (.response 200 (.ok [⟨"ab12", ⟨"Date", ""⟩⟩, ⟨"ab12", ⟨"Date", "2025-10-31T20:00:00+01:00"⟩⟩]))
      ⟨1761933600, 0, UTC⟩ = true ∧
    validateAccessTokenParse (.transportError "timeout") ⟨1761933600, 0, UTC⟩ = false :=
  ⟨(validateAccessTokenParse_iff _ ⟨1761933600, 0, UTC⟩ (by decide)).1.2
      ⟨_, rfl, ⟨"ab12", ⟨"Date", "2025-10-31T20:00:00+01:00"⟩⟩,
        List.mem_cons_of_mem _ (List.mem_cons_self _ _), _, rfl, by decide⟩,
    (validateAccessTokenParse_iff (.transportError "timeout") ⟨1761933600, 0, UTC⟩
      (by decide)).2.1 "timeout" (Or.inr rfl)⟩

/-! ### `POST /api/auth` -/

/-- C9, as stated, fails: with the remote backend configured, the well-formed
request `badLoginRequest` is answered 500 `internal error` when the password
hash cannot be fetched and 401 `unauthorized` when the password does not
match the fetched hash, so rejected requests do not all get the same status
and body. -/
theorem auth_rejection_not_uniform :
    (badLoginRequest.method = "POST" ∧ badLoginRequest.body = .ok "guess" ∧
      parseEnabled envRemote = true) ∧
    ((∃ err, getRegistrationPasswordHashFromParse worldLocal.settingReply = .error err) ∧
      (authHandler envRemote worldLocal [] badLoginRequest).1
        = httpError "internal error" StatusInternalServerError ∧
      (authHandler envRemote worldLocal [] badLoginRequest).1.status = 500) ∧
    ((∃ hash, getRegistrationPasswordHashFromParse worldWrongPassword.settingReply = .ok hash ∧
        worldWrongPassword.bcryptMatches hash "guess" = false) ∧
      (authHandler envRemote worldWrongPassword [] badLoginRequest).1
        = httpError "unauthorized" StatusUnauthorized ∧
      (authHandler envRemote worldWrongPassword [] badLoginRequest).1.status = 401) ∧
    ¬ (∀ (env : Env) (w w' : AuthWorld) (store : TokenStore) (r : AuthRequest),
        r.method = "POST" → (∃ password, r.body = .ok password) →
        (authHandler env w store r).1.status ≠ StatusOK →
        (authHandler env w' store r).1.status ≠ StatusOK →
        (authHandler env w store r).1.status = (authHandler env w' store r).1.status) := by
  have h1 : (authHandler envRemote worldLocal [] badLoginRequest).1.status = 500 := by rfl
  have h2 : (authHandler envRemote worldWrongPassword [] badLoginRequest).1.status = 401 := by
    rfl
  refine ⟨⟨rfl, rfl, by decide⟩, ⟨⟨_, rfl⟩, rfl, h1⟩, ⟨⟨_, rfl, rfl⟩, rfl, h2⟩, ?_⟩
  intro h
  have := h envRemote worldLocal worldWrongPassword [] badLoginRequest rfl ⟨"guess", rfl⟩
    (by rw [h1]; decide) (by rw [h2]; decide)
  rw [h1, h2] at this
  exact absurd this (by decide)

/-- C9, amended: a well-formed POST that does not end in a token issuance
leaves the token store as it is and is answered by one of two fixed
rejections, chosen by the step that failed: 401 `unauthorized` exactly when
the password was compared and found wrong (against the fetched hash on the
remote backend, against the environment's password on the local one), and
500 `internal error` otherwise, that is when fetching the hash, generating
the token or storing it remotely failed. Neither body carries the error's
detail. -/
theorem auth_rejection_by_step (env : Env) (w : AuthWorld) (store : TokenStore)
    (r : AuthRequest) (password : String) (hpost : r.method = "POST")
    (hbody : r.body = .ok password)
    (hfail : (authHandler env w store r).1.status ≠ StatusOK) :
    (authHandler env w store r).2 = store ∧
    ((authHandler env w store r).1 = httpError "unauthorized" StatusUnauthorized ∨
      (authHandler env w store r).1 = httpError "internal error" StatusInternalServerError) ∧
    ((authHandler env w store r).1 = httpError "unauthorized" StatusUnauthorized ↔
      (parseEnabled env = true ∧ ∃ hash,
          getRegistrationPasswordHashFromParse w.settingReply = .ok hash ∧
          w.bcryptMatches hash password = false) ∨
      (parseEnabled env = false ∧
        password ≠ getEnv env "REGISTRATION_PASSWORD" "secret-password")) ∧
    (parseEnabled env = true →
      (∃ err, getRegistrationPasswordHashFromParse w.settingReply = .error err) →
      (authHandler env w store r).1 = httpError "internal error" StatusInternalServerError) := by
  have hne : httpError "internal error" StatusInternalServerError
      ≠ httpError "unauthorized" StatusUnauthorized := by
    intro h
    have := congrArg Response.status h
    revert this
    decide
  have hm : (r.method != "POST") = false := by rw [hpost]; rfl
  unfold authHandler at hfail ⊢
  simp only [hm, Bool.false_eq_true, if_false, hbody] at hfail ⊢
  by_cases hp : parseEnabled env = true
  · simp only [hp, if_true] at hfail ⊢
    cases hf : getRegistrationPasswordHashFromParse w.settingReply with
    | error err =>
      simp only [hf] at hfail ⊢
      refine ⟨trivial, Or.inr trivial, ?_, fun _ _ => trivial⟩
      constructor
      · intro h; exact absurd h hne
      · rintro (⟨_, hash, hh, _⟩ | ⟨h, _⟩)
        · cases hh
        · cases h
    | ok hash =>
      simp only [hf] at hfail ⊢
      by_cases hb : w.bcryptMatches hash password = true
      · simp only [hb, Bool.not_true, Bool.false_eq_true, if_false] at hfail ⊢
        cases hr : w.randomToken with
        | error err =>
          simp only [hr] at hfail ⊢
          refine ⟨trivial, Or.inr trivial, ?_, fun _ _ => trivial⟩
          constructor
          · intro h; exact absurd h hne
          · rintro (⟨_, hash', hh, hb'⟩ | ⟨h, _⟩)
            · simp only [Except.ok.injEq] at hh
              subst hh
              rw [hb] at hb'; cases hb'
            · cases h
        | ok token =>
          simp only [hr] at hfail ⊢
          cases hc : createParseAccessToken w.createReply with
          | none =>
            simp only [hc, writeJSON] at hfail
            exact absurd rfl hfail
          | some err =>
            simp only [hc] at hfail ⊢
            refine ⟨trivial, Or.inr trivial, ?_, fun _ _ => trivial⟩
            constructor
            · intro h; exact absurd h hne
            · rintro (⟨_, hash', hh, hb'⟩ | ⟨h, _⟩)
              · simp only [Except.ok.injEq] at hh
                subst hh
                rw [hb] at hb'; cases hb'
              · cases h
      · have hb' : w.bcryptMatches hash password = false := by simpa using hb
        simp only [hb', Bool.not_false, if_true] at hfail ⊢
        refine ⟨trivial, Or.inl trivial, ?_, ?_⟩
        · simp only [true_iff]
          exact Or.inl ⟨trivial, hash, rfl, hb'⟩
        · rintro _ ⟨err, he⟩
          cases he
  · have hp' : parseEnabled env = false := by simpa using hp
    simp only [hp', Bool.false_eq_true, if_false] at hfail ⊢
    by_cases hpw : (password != getEnv env "REGISTRATION_PASSWORD" "secret-password") = true
    · simp only [hpw, if_true] at hfail ⊢
      refine ⟨trivial, Or.inl trivial, ?_, fun h => by cases h⟩
      simp only [true_iff]
      exact Or.inr ⟨trivial, by simpa using hpw⟩
    · simp only [hpw, Bool.false_eq_true, if_false] at hfail ⊢
      cases hr : w.randomToken with
      | error err =>
        simp only [hr] at hfail ⊢
        refine ⟨trivial, Or.inr trivial, ?_, fun h => by cases h⟩
        constructor
        · intro h; exact absurd h hne
        · rintro (⟨h, _⟩ | ⟨_, h⟩)
          · cases h
          · exact absurd (by simpa using h) hpw
      | ok token =>
        simp only [hr, writeJSON] at hfail
        exact absurd rfl hfail

/-- C9, amended, on the remote backend: the hash cannot be fetched (500), and
the password does not match the fetched hash (401). -/
theorem auth_rejection_by_step_witness :
    (authHandler envRemote worldLocal [] badLoginRequest).1
      = httpError "internal error" StatusInternalServerError ∧
    (authHandler envRemote worldWrongPassword [] badLoginRequest).1
      = httpError "unauthorized" StatusUnauthorized ∧
    (authHandler envRemote worldWrongPassword [] badLoginRequest).2 = [] :=
  ⟨(auth_rejection_by_step envRemote worldLocal [] badLoginRequest "guess" rfl rfl
      (by decide)).2.2.2 rfl ⟨_, rfl⟩,
    (auth_rejection_by_step envRemote worldWrongPassword [] badLoginRequest "guess" rfl rfl
      (by decide)).2.2.1.2 (Or.inl ⟨rfl, _, rfl, rfl⟩),
    (auth_rejection_by_step envRemote worldWrongPassword [] badLoginRequest "guess" rfl rfl
      (by decide)).1⟩

end MitGoServer
